import Mathlib

/-!
php_profiler.c: the profiler extension's frame store, hooks and report

A shallow embedding of `src/php_profiler.c`.  The module globals
(`zend_profiler_globals`) become a structure, every function of the file a
function on it.  Values the code obtains from the host (line number and file
name of the executing code, `zend_memory_usage(0)`, `ticks()`, `getpid()`,
whether `php_stream_open_wrapper` returns a stream) are arguments.

`php_profiler.h` is not part of the sources.  What it declares is taken as
follows: `PROFILER_MAX_FRAMES` is the argument of `profiler_globals_ctor`;
`ticks_t` and the `memory` field are 64-bit words; pointers into the frame
array are indices; the `profiler_frame` member of an execute_data is a slot
addressed by the execute_data's address.
-/

namespace Profiler

/-! ## Data model -/

/-- A `zend_string`: its text.  `len` is the number of characters. -/
abbrev zend_string := String

/-- Modelled from the spec: the width of `ticks_t` and of the `cpu` and
`memory` members of `profile_t`.  They are declared in `php_profiler.h`,
which is not among the sources; the spec gives both 64 bits, `ticks()`
assembles 64 bits and the report prints both with `%lld`.  `WORD` is the
number of values of a 64-bit word. -/
def WORD : Nat := 2 ^ 64

/-- The value of a 64-bit word read as a signed number, the way `%ld` and
`%lld` print it. -/
def toSigned (w : Nat) : Int :=
  if w % WORD < 2 ^ 63 then ((w % WORD : Nat) : Int) else ((w % WORD : Nat) : Int) - (WORD : Int)

/-- What `%s` prints for `z->val`: the characters before the first NUL. -/
def cstr (z : zend_string) : String :=
  String.mk (z.data.takeWhile (fun ch => ch != Char.ofNat 0))

/-- The member `location` of a `profile_t`. -/
structure location_t where
  file : Option zend_string
  line : Nat
  deriving DecidableEq, Repr

/-- The member `call` of a `profile_t`. -/
structure call_t where
  function : Option zend_string
  scope : Option zend_string
  memory : Nat
  cpu : Nat
  deriving DecidableEq, Repr

/-- One slot of the frame array. -/
structure profile_t where
  location : location_t
  call : call_t
  deriving DecidableEq, Repr

/-- A slot of zero-initialised static storage. -/
def profile_zero : profile_t :=
  { location := { file := none, line := 0 },
    call := { function := none, scope := none, memory := 0, cpu := 0 } }

/-- A class entry: only `name` is read. -/
structure zend_class_entry where
  name : zend_string
  deriving DecidableEq, Repr

/-- The `common` part of a `zend_function`. -/
structure zend_function where
  function_name : Option zend_string
  scope : Option zend_class_entry
  deriving DecidableEq, Repr

/-- The members of a `zend_execute_data` the hooks read.  `prev_execute_data`
is the address of the caller's execute_data, `none` for a NULL pointer. -/
structure zend_execute_data where
  func : Option zend_function
  prev_execute_data : Option Nat
  deriving DecidableEq, Repr

/-- The module globals.  `frame` and `limit` are pointers into `frames`,
kept as indices: `frame` is the number of recorded frames.  Of `frames` only
the slots below `limit` exist in the array; the hooks write below `limit`
only, request shutdown reads below `frame` only. -/
structure zend_profiler_globals where
  enabled : Bool
  memory : Bool
  output : Option zend_string
  reset : Bool
  frame : Nat
  limit : Nat
  frames : Nat → profile_t

/-- Warnings raised through `php_error_docref(NULL, E_WARNING, ...)`. -/
inductive Warning where
  | already_enabled
  | already_disabled
  | open_failed (path : zend_string)
  deriving DecidableEq, Repr

/-- Host values read by `profiler_record_call`. -/
structure CallEnv where
  lineno : Nat
  filename : Option zend_string
  memory_usage : Nat
  ticks : Nat
  deriving DecidableEq, Repr

/-- Host values read by `profiler_record_return`. -/
structure RetEnv where
  ticks : Nat
  memory_usage : Nat
  deriving DecidableEq, Repr

/-! ## Module and request lifecycle -/

/-- The constructor of the globals, `max_frames` being `PROFILER_MAX_FRAMES`. -/
def profiler_globals_ctor (max_frames : Nat) : zend_profiler_globals :=
  { enabled := false
    memory := true
    output := none
    reset := false
    frame := 0
    limit := max_frames
    frames := fun _ => profile_zero }

/-- Request init: the three INI values are copied and the frame pointer is
put back to the first slot. -/
def PHP_RINIT_FUNCTION (ini_enabled ini_memory : Bool) (ini_output : Option zend_string)
    (pg : zend_profiler_globals) : zend_profiler_globals :=
  { pg with enabled := ini_enabled, memory := ini_memory, output := ini_output, frame := 0 }

/-- Appends the text of one `php_stream_printf` call to a stream. -/
def php_stream_printf (stream : String) (text : String) : String :=
  stream ++ text

/-- The statements of one round of the loop of request shutdown: the four
`php_stream_printf` calls for the slot `profile`. -/
def write_frame (memory : Bool) (profile : profile_t) (stream : String) : String :=
  let stream := php_stream_printf stream
    ("fl=" ++ (match profile.location.file with
               | some file => cstr file
               | none => "") ++ "\n")
  let function := match profile.call.function with
    | some fn => cstr fn
    | none => ""
  let stream :=
    match profile.call.scope with
    | some scope =>
      if scope.length ≠ 0 then
        php_stream_printf stream ("fn=" ++ cstr scope ++ "::" ++ function ++ "\n")
      else
        php_stream_printf stream ("fn=" ++ function ++ "\n")
    | none => php_stream_printf stream ("fn=" ++ function ++ "\n")
  let stream :=
    if memory then
      php_stream_printf stream
        (toString (toSigned profile.location.line) ++ " " ++
          toString (toSigned profile.call.memory) ++ " " ++
          toString (toSigned profile.call.cpu) ++ "\n")
    else
      php_stream_printf stream
        (toString (toSigned profile.location.line) ++ " " ++
          toString (toSigned profile.call.cpu) ++ "\n")
  php_stream_printf stream "\n"

/-- The loop `do ... while (++profile < end)` of request shutdown, started
at slot `i`; `fuel` bounds the number of rounds.  A pointer into the array is
never NULL, so the `else break` branch is not taken. -/
def write_frames (pg : zend_profiler_globals) : Nat → Nat → String → String
  | 0, _, stream => stream
  | fuel + 1, i, stream =>
    let stream := write_frame pg.memory (pg.frames i) stream
    if i + 1 < pg.frame then write_frames pg fuel (i + 1) stream else stream

/-- What request shutdown writes to a stream it has opened. -/
def write_report (pg : zend_profiler_globals) (pid : Int) : String :=
  let stream := ""
  let stream := php_stream_printf stream "version: 1\n"
  let stream := php_stream_printf stream "creator: profiler\n"
  let stream := php_stream_printf stream ("pid: " ++ toString pid ++ "\n")
  let stream :=
    if pg.memory then php_stream_printf stream "events: memory cpu\n"
    else php_stream_printf stream "events: cpu\n"
  if 0 < pg.frame then write_frames pg pg.frame 0 stream else stream

/-- Result of request shutdown: the globals, the text written to the stream
(`none` when no stream was opened) and the warning raised. -/
structure shutdown_result where
  pg : zend_profiler_globals
  written : Option String
  warning : Option Warning

/-- Request shutdown.  `can_open path` tells whether `php_stream_open_wrapper`
returns a stream for `path`. -/
def PHP_RSHUTDOWN_FUNCTION (can_open : zend_string → Bool) (pid : Int)
    (pg : zend_profiler_globals) : shutdown_result :=
  match pg.output with
  | none => { pg := pg, written := none, warning := none }
  | some path =>
    let pg1 := if pg.reset then { pg with output := none, reset := false } else pg
    if can_open path then
      { pg := pg1, written := some (write_report pg pid), warning := none }
    else
      { pg := pg1, written := none, warning := some (Warning.open_failed path) }

/-! ## The PHP functions -/

/-- The PHP function `profiler_enable()`. -/
def profiler_enable (pg : zend_profiler_globals) : zend_profiler_globals × Option Warning :=
  if !pg.enabled then ({ pg with enabled := true }, none)
  else (pg, some Warning.already_enabled)

/-- The PHP function `profiler_output(filename)`. -/
def profiler_output (fpath : zend_string) (pg : zend_profiler_globals) : zend_profiler_globals :=
  { pg with output := some fpath, reset := true }

/-- The PHP function `profiler_disable()`. -/
def profiler_disable (pg : zend_profiler_globals) : zend_profiler_globals × Option Warning :=
  if pg.enabled then ({ pg with enabled := false }, none)
  else (pg, some Warning.already_disabled)

/-! ## The execute hooks -/

/-- The state the hooks work on: the module globals, the `profiler_frame`
slot of every execute_data (by address; a slot holds the index of a frame or
NULL), and the activations of `profiler_execute` that are waiting for the
original executor to come back, innermost first.  A waiting activation is
`some execute_data` when it recorded the call (it will run
`profiler_record_return`) and `none` when it took the other branch. -/
structure State where
  pg : zend_profiler_globals
  profiler_frame : Nat → Option Nat
  pending : List (Option zend_execute_data)

/-- Stores `v` in slot `k` of an array or memory. -/
def store {α : Type} (m : Nat → α) (k : Nat) (v : α) : Nat → α :=
  fun i => if i = k then v else m i

/-- The slot written by `profiler_record_call`, from the slot's old content. -/
def stamp (memory : Bool) (func : zend_function) (env : CallEnv) (old : profile_t) : profile_t :=
  let profile : profile_t :=
    { location := { file := env.filename, line := env.lineno % WORD },
      call := { function := func.function_name,
                scope := (match func.scope with
                          | some ce => some ce.name
                          | none => none),
                memory := old.call.memory,
                cpu := old.call.cpu } }
  let profile : profile_t :=
    if memory then { profile with call := { profile.call with memory := env.memory_usage % WORD } }
    else profile
  { profile with call := { profile.call with cpu := env.ticks % WORD } }

/-- The slot as `profiler_record_return` leaves it: unsigned 64-bit
subtraction in place. -/
def finalize (memory : Bool) (env : RetEnv) (old : profile_t) : profile_t :=
  let profile : profile_t :=
    { old with call := { old.call with cpu := (env.ticks % WORD + WORD - old.call.cpu % WORD) % WORD } }
  if memory then
    { profile with
        call := { profile.call with
                  memory := (env.memory_usage % WORD + WORD - profile.call.memory % WORD) % WORD } }
  else profile

/-- Takes the next slot, fills it and leaves its index in the caller's
`profiler_frame`.  `none` is a NULL pointer dereference: of
`execute_data->func`, or of `execute_data->prev_execute_data` in the last
statement. -/
def profiler_record_call (s : State) (execute_data : zend_execute_data) (env : CallEnv) :
    Option State :=
  let profile := s.pg.frame
  match execute_data.func with
  | none => none
  | some func =>
    let pg : zend_profiler_globals :=
      { s.pg with frame := s.pg.frame + 1,
                  frames := store s.pg.frames profile
                    (stamp s.pg.memory func env (s.pg.frames profile)) }
    match execute_data.prev_execute_data with
    | none => none
    | some prev =>
      some { s with pg := pg, profiler_frame := store s.profiler_frame prev (some profile) }

/-- Finalises the frame the caller's `profiler_frame` refers to, if there is
a caller and its slot is set, and clears the slot. -/
def profiler_record_return (s : State) (execute_data : zend_execute_data) (env : RetEnv) :
    State :=
  match execute_data.prev_execute_data with
  | none => s
  | some prev =>
    match s.profiler_frame prev with
    | none => s
    | some profile =>
      { s with
          pg := { s.pg with
                  frames := store s.pg.frames profile
                    (finalize s.pg.memory env (s.pg.frames profile)) },
          profiler_frame := store s.profiler_frame prev none }

/-- The hook `profiler_execute`, the original executor `zend_execute_old`
being a state transformer that may fail. -/
def profiler_execute (zend_execute_old : State → Option State)
    (execute_data : Option zend_execute_data) (envc : CallEnv) (envr : RetEnv) (s : State) :
    Option State :=
  match execute_data with
  | none => zend_execute_old s
  | some ed =>
    if s.pg.enabled && decide (s.pg.frame < s.pg.limit) && ed.func.isSome then
      (profiler_record_call s ed envc).bind fun s1 =>
        (zend_execute_old s1).map fun s2 => profiler_record_return s2 ed envr
    else
      zend_execute_old s

/-- The hook `profiler_execute_internal`: the same statements around
`zend_execute_internal_old`. -/
def profiler_execute_internal (zend_execute_internal_old : State → Option State)
    (execute_data : Option zend_execute_data) (envc : CallEnv) (envr : RetEnv) (s : State) :
    Option State :=
  match execute_data with
  | none => zend_execute_internal_old s
  | some ed =>
    if s.pg.enabled && decide (s.pg.frame < s.pg.limit) && ed.func.isSome then
      (profiler_record_call s ed envc).bind fun s1 =>
        (zend_execute_internal_old s1).map fun s2 => profiler_record_return s2 ed envr
    else
      zend_execute_internal_old s

/-- A hook up to its call of the original executor: the call event.  The
activation is pushed on `pending`. -/
def profiler_execute_enter (s : State) (execute_data : Option zend_execute_data)
    (env : CallEnv) : Option State :=
  match execute_data with
  | none => some { s with pending := none :: s.pending }
  | some ed =>
    if s.pg.enabled && decide (s.pg.frame < s.pg.limit) && ed.func.isSome then
      (profiler_record_call s ed env).map fun s1 =>
        { s1 with pending := some ed :: s1.pending }
    else
      some { s with pending := none :: s.pending }

/-- A hook from the point where the original executor has come back: the
return event of the innermost waiting activation.  Without a waiting
activation no statement of the hooks runs. -/
def profiler_execute_leave (s : State) (env : RetEnv) : State :=
  match s.pending with
  | [] => s
  | none :: rest => { s with pending := rest }
  | some ed :: rest => profiler_record_return { s with pending := rest } ed env

/-- What the host can do with the extension. -/
inductive Event where
  | rinit (ini_enabled ini_memory : Bool) (ini_output : Option zend_string)
  | rshutdown (can_open : zend_string → Bool) (pid : Int)
  | enable
  | disable
  | output (fpath : zend_string)
  | call (execute_data : Option zend_execute_data) (env : CallEnv)
  | call_internal (execute_data : Option zend_execute_data) (env : CallEnv)
  | ret (env : RetEnv)

/-- One event.  `none`: the process has faulted. -/
def step (s : State) : Event → Option State
  | Event.rinit e m o => some { s with pg := PHP_RINIT_FUNCTION e m o s.pg }
  | Event.rshutdown can_open pid =>
    some { s with pg := (PHP_RSHUTDOWN_FUNCTION can_open pid s.pg).pg }
  | Event.enable => some { s with pg := (profiler_enable s.pg).1 }
  | Event.disable => some { s with pg := (profiler_disable s.pg).1 }
  | Event.output fpath => some { s with pg := profiler_output fpath s.pg }
  | Event.call ed env => profiler_execute_enter s ed env
  | Event.call_internal ed env => profiler_execute_enter s ed env
  | Event.ret env => some (profiler_execute_leave s env)

/-- A sequence of events, stopping at a fault. -/
def run : List Event → State → Option State
  | [], s => some s
  | e :: es, s => (step s e).bind (run es)

/-- The state after module init: constructed globals, nothing waiting. -/
def initial (max_frames : Nat) (slots : Nat → Option Nat) : State :=
  { pg := profiler_globals_ctor max_frames, profiler_frame := slots, pending := [] }

/-! ## The report as the specification words it -/

/-- Concatenation of a list of texts. -/
def concat (parts : List String) : String :=
  parts.foldr (fun a b => a ++ b) ""

/-- The four header lines of a report. -/
def report_header (trackMemory : Bool) (pid : Int) : String :=
  "version: 1\n" ++ "creator: profiler\n" ++ ("pid: " ++ toString pid ++ "\n") ++
    (if trackMemory then "events: memory cpu\n" else "events: cpu\n")

/-- The text of an optional string: empty when the pointer is NULL. -/
def text_of (z : Option zend_string) : String :=
  match z with
  | some v => cstr v
  | none => ""

/-- Whether a frame's scope is present and non-empty. -/
def has_scope (p : profile_t) : Bool :=
  match p.call.scope with
  | some scope => decide (scope.length ≠ 0)
  | none => false

/-- The fields of a frame's cost row: line, then memory when tracked, then cpu. -/
def cost_fields (trackMemory : Bool) (p : profile_t) : List String :=
  if trackMemory then
    [toString (toSigned p.location.line), toString (toSigned p.call.memory),
      toString (toSigned p.call.cpu)]
  else
    [toString (toSigned p.location.line), toString (toSigned p.call.cpu)]

/-- The four lines of one frame: `fl=`, `fn=`, the cost row, an empty line. -/
def report_block (trackMemory : Bool) (p : profile_t) : String :=
  ("fl=" ++ text_of p.location.file ++ "\n") ++
    (if has_scope p then "fn=" ++ text_of p.call.scope ++ "::" ++ text_of p.call.function ++ "\n"
     else "fn=" ++ text_of p.call.function ++ "\n") ++
    (" ".intercalate (cost_fields trackMemory p) ++ "\n") ++ "\n"

/-- The report: the header, then one block per frame in the given order. -/
def report_layout (trackMemory : Bool) (pid : Int) (frames : List profile_t) : String :=
  report_header trackMemory pid ++ concat (frames.map (report_block trackMemory))

/-- The recorded frames of the store, in store order. -/
def recorded (pg : zend_profiler_globals) : List profile_t :=
  (List.range pg.frame).map pg.frames

/-- Call and return events. -/
def Event.isCallRet : Event → Bool
  | Event.call _ _ => true
  | Event.call_internal _ _ => true
  | Event.ret _ => true
  | _ => false

/-! ## Event sequences -/

/-- The file, line, function and scope a frame carries. -/
def identity (p : profile_t) : Option zend_string × Nat × Option zend_string × Option zend_string :=
  (p.location.file, p.location.line, p.call.function, p.call.scope)

/-- The file, line, function and scope of a call event that has a function. -/
def call_identity (ed : Option zend_execute_data) (env : CallEnv) :
    Option (Option zend_string × Nat × Option zend_string × Option zend_string) :=
  match ed with
  | some ed =>
    match ed.func with
    | some func =>
      some (env.filename, env.lineno % WORD, func.function_name,
        match func.scope with
        | some ce => some ce.name
        | none => none)
    | none => none
  | none => none

/-- The identities of the call events of a sequence, in order. -/
def call_identities : List Event → List (Option zend_string × Nat × Option zend_string × Option zend_string)
  | [] => []
  | Event.call ed env :: es =>
    match call_identity ed env with
    | some c => c :: call_identities es
    | none => call_identities es
  | Event.call_internal ed env :: es =>
    match call_identity ed env with
    | some c => c :: call_identities es
    | none => call_identities es
  | _ :: es => call_identities es

/-- A return event, or a call event of a function from a caller: the
execute_data, its `func` and its `prev_execute_data` are not NULL. -/
def Event.from_caller : Event → Bool
  | Event.call (some ed) _ => ed.func.isSome && ed.prev_execute_data.isSome
  | Event.call_internal (some ed) _ => ed.func.isSome && ed.prev_execute_data.isSome
  | Event.ret _ => true
  | _ => false

/-- A well-nested sequence of call and return events, with toggles of the
engine in between: every call comes with its body and its return. -/
inductive Nest where
  | done
  | toggle (enable : Bool) (rest : Nest)
  | call (internal : Bool) (execute_data : zend_execute_data) (envc : CallEnv) (body : Nest)
      (envr : RetEnv) (rest : Nest)

/-- The events of a well-nested sequence, in order. -/
def Nest.events : Nest → List Event
  | Nest.done => []
  | Nest.toggle enable rest =>
    (if enable then Event.enable else Event.disable) :: Nest.events rest
  | Nest.call internal ed envc body envr rest =>
    (if internal then Event.call_internal (some ed) envc else Event.call (some ed) envc) ::
      (Nest.events body ++ Event.ret envr :: Nest.events rest)

/-- The key is kept in the caller's activation context: every call has a
caller execute_data, and an execute_data that has a call open (`busy`) is not
the caller of a call nested in it. -/
def Nest.callers_ok (busy : List Nat) : Nest → Bool
  | Nest.done => true
  | Nest.toggle _ rest => Nest.callers_ok busy rest
  | Nest.call _ ed _ body _ rest =>
    match ed.prev_execute_data with
    | none => false
    | some prev =>
      !(busy.contains prev) && Nest.callers_ok (prev :: busy) body && Nest.callers_ok busy rest

/-- What a well-nested sequence leaves alone, from state `s` to state `s1`:
the waiting activations, the frames recorded before it, the slots of the
execute_data in `busy`, the memory setting and the limit; the count does not
go down. -/
def Preserves (busy : List Nat) (s s1 : State) : Prop :=
  s1.pending = s.pending ∧ s.pg.frame ≤ s1.pg.frame ∧
    (∀ i, i < s.pg.frame → s1.pg.frames i = s.pg.frames i) ∧
    (∀ c, c ∈ busy → s1.profiler_frame c = s.profiler_frame c) ∧
    s1.pg.memory = s.pg.memory ∧ s1.pg.limit = s.pg.limit

/-! ## Lemmas on the report writer -/

theorem intercalate_two (a b : String) : " ".intercalate [a, b] = a ++ " " ++ b := by
  simp [String.intercalate, String.intercalate.go, String.append_assoc]

theorem intercalate_three (a b c : String) :
    " ".intercalate [a, b, c] = a ++ " " ++ b ++ " " ++ c := by
  simp [String.intercalate, String.intercalate.go, String.append_assoc]

/-- One round of the loop appends one block of the layout. -/
theorem write_frame_eq (memory : Bool) (p : profile_t) (stream : String) :
    write_frame memory p stream = stream ++ report_block memory p := by
  rcases p with ⟨⟨file, line⟩, ⟨fn, scope, mem, cpu⟩⟩
  simp only [write_frame, report_block, has_scope, cost_fields, php_stream_printf]
  rcases scope with _ | scope <;> cases memory
  · simp [intercalate_two, String.append_assoc, text_of]
  · simp [intercalate_three, String.append_assoc, text_of]
  · by_cases hl : scope.length = 0 <;>
      simp [hl, intercalate_two, String.append_assoc, text_of]
  · by_cases hl : scope.length = 0 <;>
      simp [hl, intercalate_three, String.append_assoc, text_of]

/-- The loop writes the blocks of the slots from `i` up to the frame pointer. -/
theorem write_frames_eq (pg : zend_profiler_globals) :
    ∀ (fuel i : Nat) (stream : String), i < pg.frame → pg.frame - i ≤ fuel →
      write_frames pg fuel i stream =
        stream ++ concat (((List.range' i (pg.frame - i)).map pg.frames).map
          (report_block pg.memory)) := by
  intro fuel
  induction fuel with
  | zero => intro i stream hi hf; omega
  | succ fuel ih =>
    intro i stream hi hf
    obtain ⟨m, hm⟩ : ∃ m, pg.frame - i = m + 1 := ⟨pg.frame - i - 1, by omega⟩
    rw [hm]
    simp only [write_frames, write_frame_eq, List.range'_succ, List.map_cons, concat,
      List.foldr_cons]
    by_cases hlt : i + 1 < pg.frame
    · rw [if_pos hlt, ih (i + 1) _ hlt (by omega)]
      have : pg.frame - (i + 1) = m := by omega
      rw [this]
      simp [concat, String.append_assoc]
    · rw [if_neg hlt]
      have : m = 0 := by omega
      subst this
      simp

/-- What is written to an opened stream is the layout over the recorded frames. -/
theorem write_report_eq (pg : zend_profiler_globals) (pid : Int) :
    write_report pg pid = report_layout pg.memory pid (recorded pg) := by
  have hdr : (if pg.memory = true then
        php_stream_printf (php_stream_printf (php_stream_printf (php_stream_printf ""
          "version: 1\n") "creator: profiler\n") ("pid: " ++ toString pid ++ "\n"))
          "events: memory cpu\n"
      else
        php_stream_printf (php_stream_printf (php_stream_printf (php_stream_printf ""
          "version: 1\n") "creator: profiler\n") ("pid: " ++ toString pid ++ "\n"))
          "events: cpu\n") = report_header pg.memory pid := by
    cases pg.memory <;> simp [php_stream_printf, report_header, String.append_assoc]
  simp only [write_report, hdr, report_layout, recorded]
  by_cases h : 0 < pg.frame
  · rw [if_pos h, write_frames_eq pg pg.frame 0 _ h (by omega), List.range_eq_range']
    simp
  · have h0 : pg.frame = 0 := by omega
    rw [if_neg h, h0]
    simp [concat]

/-! ## Toggle, session end and export -/

/-- C8: `profiler_enable()` on an enabled engine and `profiler_disable()` on a
disabled one raise a warning and leave the globals (and the whole state) as
they were; on a disabled, respectively enabled, engine they raise no warning
and change the `enabled` flag only, so frames, count, output target and the
`profiler_frame` slots of open frames stay as they are. -/
theorem toggle_misuse (s : State) :
    (s.pg.enabled = true →
      profiler_enable s.pg = (s.pg, some Warning.already_enabled) ∧
      step s Event.enable = some s) ∧
    (s.pg.enabled = false →
      profiler_disable s.pg = (s.pg, some Warning.already_disabled) ∧
      step s Event.disable = some s) ∧
    (s.pg.enabled = false →
      profiler_enable s.pg = ({ s.pg with enabled := true }, none) ∧
      step s Event.enable = some { s with pg := { s.pg with enabled := true } }) ∧
    (s.pg.enabled = true →
      profiler_disable s.pg = ({ s.pg with enabled := false }, none) ∧
      step s Event.disable = some { s with pg := { s.pg with enabled := false } }) := by
  refine ⟨?_, ?_, ?_, ?_⟩ <;> intro h <;> simp [profiler_enable, profiler_disable, step, h]

/-- Witness of C8: all four cases on concrete globals with two recorded frames. -/
theorem toggle_misuse_witness :
    (profiler_enable { profiler_globals_ctor 4 with enabled := true, frame := 2 }).2 =
        some Warning.already_enabled ∧
      (profiler_enable { profiler_globals_ctor 4 with enabled := true, frame := 2 }).1.frame = 2 ∧
      (profiler_disable { profiler_globals_ctor 4 with enabled := true, frame := 2 }).2 = none ∧
      (profiler_disable { profiler_globals_ctor 4 with enabled := true, frame := 2 }).1.frame = 2 ∧
      (profiler_disable (profiler_globals_ctor 4)).2 = some Warning.already_disabled ∧
      (profiler_enable (profiler_globals_ctor 4)).2 = none := by
  have h := toggle_misuse
    { pg := { profiler_globals_ctor 4 with enabled := true, frame := 2 },
      profiler_frame := fun _ => none, pending := [] }
  have h0 := toggle_misuse (initial 4 (fun _ => none))
  refine ⟨?_, ?_, ?_, ?_, ?_, ?_⟩
  · rw [(h.1 rfl).1]
  · rw [(h.1 rfl).1]
  · rw [(h.2.2.2 rfl).1]
  · rw [(h.2.2.2 rfl).1]
  · exact congrArg Prod.snd (h0.2.1 rfl).1
  · exact congrArg Prod.snd (h0.2.2.1 rfl).1

/-- C10: at request shutdown a target set through `profiler_output` (reset
flag on) is cleared and the flag turned off, whether the stream opened or
not; with a configured target (reset flag off) or with no target the globals,
so the output target and the reset flag, are left as they were. -/
theorem one_shot_target_cleared (can_open : zend_string → Bool) (pid : Int)
    (pg : zend_profiler_globals) :
    (∀ path, pg.output = some path → pg.reset = true →
      (PHP_RSHUTDOWN_FUNCTION can_open pid pg).pg.output = none ∧
      (PHP_RSHUTDOWN_FUNCTION can_open pid pg).pg.reset = false) ∧
    (∀ fpath,
      (PHP_RSHUTDOWN_FUNCTION can_open pid (profiler_output fpath pg)).pg.output = none ∧
      (PHP_RSHUTDOWN_FUNCTION can_open pid (profiler_output fpath pg)).pg.reset = false) ∧
    (∀ path, pg.output = some path → pg.reset = false →
      (PHP_RSHUTDOWN_FUNCTION can_open pid pg).pg = pg) ∧
    (pg.output = none → (PHP_RSHUTDOWN_FUNCTION can_open pid pg).pg = pg) := by
  refine ⟨?_, ?_, ?_, ?_⟩
  · intro path ho hr
    cases hc : can_open path <;> simp [PHP_RSHUTDOWN_FUNCTION, ho, hr, hc]
  · intro fpath
    cases hc : can_open fpath <;> simp [PHP_RSHUTDOWN_FUNCTION, profiler_output, hc]
  · intro path ho hr
    cases hc : can_open path <;> simp [PHP_RSHUTDOWN_FUNCTION, ho, hr, hc]
  · intro ho
    simp [PHP_RSHUTDOWN_FUNCTION, ho]

/-- Witness of C10: a one-shot target is cleared when the stream cannot be
opened and when it can; a configured target stays. -/
theorem one_shot_target_cleared_witness :
    (PHP_RSHUTDOWN_FUNCTION (fun _ => false) 1
        (profiler_output "/tmp/x" (profiler_globals_ctor 4))).pg.output = none ∧
      (PHP_RSHUTDOWN_FUNCTION (fun _ => true) 1
        (profiler_output "/tmp/x" (profiler_globals_ctor 4))).pg.reset = false ∧
      (PHP_RSHUTDOWN_FUNCTION (fun _ => false) 1
        { profiler_globals_ctor 4 with output := some "/tmp/y" }).pg.output = some "/tmp/y" := by
  refine ⟨?_, ?_, ?_⟩
  · exact ((one_shot_target_cleared (fun _ => false) 1
      (profiler_output "/tmp/x" (profiler_globals_ctor 4))).1 "/tmp/x" rfl rfl).1
  · exact ((one_shot_target_cleared (fun _ => true) 1
      (profiler_output "/tmp/x" (profiler_globals_ctor 4))).1 "/tmp/x" rfl rfl).2
  · rw [(one_shot_target_cleared (fun _ => false) 1
      { profiler_globals_ctor 4 with output := some "/tmp/y" }).2.2.1 "/tmp/y" rfl rfl]

/-- C6: with an output target whose stream opens, request shutdown writes
exactly the layout: the four header lines (the `events:` line by the memory
setting), then for each recorded frame in store order, and for no other
slot, the lines `fl=`, `fn=` (with `scope::` when the scope is present and
non-empty), the cost row and an empty line; a cost row has three fields with
memory tracking and two without. -/
theorem report_layout_exact (can_open : zend_string → Bool) (pid : Int)
    (pg : zend_profiler_globals) (path : zend_string)
    (ho : pg.output = some path) (hc : can_open path = true) :
    (PHP_RSHUTDOWN_FUNCTION can_open pid pg).written =
        some (report_layout pg.memory pid ((List.range pg.frame).map pg.frames)) ∧
      (PHP_RSHUTDOWN_FUNCTION can_open pid pg).warning = none ∧
      ∀ p, (cost_fields pg.memory p).length = if pg.memory then 3 else 2 := by
  refine ⟨?_, ?_, ?_⟩
  · simp [PHP_RSHUTDOWN_FUNCTION, ho, hc, write_report_eq, recorded]
  · simp [PHP_RSHUTDOWN_FUNCTION, ho, hc]
  · intro p
    cases pg.memory <;> simp [cost_fields]

/-- Witness of C6: two recorded frames, one with a scope, memory tracked. -/
theorem report_layout_exact_witness :
    (PHP_RSHUTDOWN_FUNCTION (fun _ => true) 42
        { profiler_globals_ctor 4 with
            output := some "/tmp/p", frame := 2,
            frames := fun i =>
              if i = 0 then ⟨⟨some "a.php", 3⟩, ⟨some "f", none, 18446744073709551606, 25⟩⟩
              else ⟨⟨some "b.php", 7⟩, ⟨some "m", some "K", 16, 2⟩⟩ }).written =
      some ("version: 1\ncreator: profiler\npid: 42\nevents: memory cpu\n" ++
        "fl=a.php\nfn=f\n3 -10 25\n\n" ++ "fl=b.php\nfn=K::m\n7 16 2\n\n") := by
  rw [(report_layout_exact (fun _ => true) 42 _ "/tmp/p" rfl rfl).1]
  decide

/-- C9: when the stream cannot be opened, request shutdown raises the
warning, writes nothing and leaves the frame store as it was (count, every
slot, memory setting); a later shutdown to another target that opens writes
the report of those same frames. -/
theorem export_failure_keeps_store (can_open : zend_string → Bool) (pid : Int)
    (pg : zend_profiler_globals) (path : zend_string)
    (ho : pg.output = some path) (hc : can_open path = false) :
    (PHP_RSHUTDOWN_FUNCTION can_open pid pg).warning = some (Warning.open_failed path) ∧
      (PHP_RSHUTDOWN_FUNCTION can_open pid pg).written = none ∧
      (PHP_RSHUTDOWN_FUNCTION can_open pid pg).pg.frame = pg.frame ∧
      (PHP_RSHUTDOWN_FUNCTION can_open pid pg).pg.frames = pg.frames ∧
      (PHP_RSHUTDOWN_FUNCTION can_open pid pg).pg.memory = pg.memory ∧
      ∀ (can_open2 : zend_string → Bool) (pid2 : Int) (other : zend_string),
        can_open2 other = true →
        (PHP_RSHUTDOWN_FUNCTION can_open2 pid2
          (profiler_output other (PHP_RSHUTDOWN_FUNCTION can_open pid pg).pg)).written =
          some (report_layout pg.memory pid2 ((List.range pg.frame).map pg.frames)) := by
  have hpg : (PHP_RSHUTDOWN_FUNCTION can_open pid pg).pg.frame = pg.frame ∧
      (PHP_RSHUTDOWN_FUNCTION can_open pid pg).pg.frames = pg.frames ∧
      (PHP_RSHUTDOWN_FUNCTION can_open pid pg).pg.memory = pg.memory := by
    cases hr : pg.reset <;> simp [PHP_RSHUTDOWN_FUNCTION, ho, hc, hr]
  refine ⟨?_, ?_, hpg.1, hpg.2.1, hpg.2.2, ?_⟩
  · simp [PHP_RSHUTDOWN_FUNCTION, ho, hc]
  · simp [PHP_RSHUTDOWN_FUNCTION, ho, hc]
  · intro can_open2 pid2 other h2
    obtain ⟨h1, h3, h4⟩ := hpg
    generalize (PHP_RSHUTDOWN_FUNCTION can_open pid pg).pg = q at h1 h3 h4 ⊢
    simp [PHP_RSHUTDOWN_FUNCTION, profiler_output, h2, write_report_eq, recorded, h1, h3, h4]

/-- Witness of C9: one recorded frame, first target cannot be opened. -/
theorem export_failure_keeps_store_witness :
    (PHP_RSHUTDOWN_FUNCTION (fun p => decide (p = "/tmp/ok")) 7
        { profiler_globals_ctor 4 with
            output := some "/nowhere/p", frame := 1, memory := false,
            frames := fun _ => ⟨⟨some "a.php", 3⟩, ⟨some "f", none, 0, 25⟩⟩ }).warning =
        some (Warning.open_failed "/nowhere/p") ∧
      (PHP_RSHUTDOWN_FUNCTION (fun p => decide (p = "/tmp/ok")) 7
        (profiler_output "/tmp/ok"
          (PHP_RSHUTDOWN_FUNCTION (fun p => decide (p = "/tmp/ok")) 7
            { profiler_globals_ctor 4 with
                output := some "/nowhere/p", frame := 1, memory := false,
                frames := fun _ => ⟨⟨some "a.php", 3⟩, ⟨some "f", none, 0, 25⟩⟩ }).pg)).written =
        some "version: 1\ncreator: profiler\npid: 7\nevents: cpu\nfl=a.php\nfn=f\n3 25\n\n" := by
  have h := export_failure_keeps_store (fun p => decide (p = "/tmp/ok")) 7
    { profiler_globals_ctor 4 with
        output := some "/nowhere/p", frame := 1, memory := false,
        frames := fun _ => ⟨⟨some "a.php", 3⟩, ⟨some "f", none, 0, 25⟩⟩ }
    "/nowhere/p" rfl (by decide)
  refine ⟨h.1, ?_⟩
  rw [h.2.2.2.2.2 (fun p => decide (p = "/tmp/ok")) 7 "/tmp/ok" (by decide)]
  decide

/-! ## The hooks: basic facts -/

theorem run_nil (s : State) : run [] s = some s := rfl

theorem run_cons (e : Event) (es : List Event) (s : State) :
    run (e :: es) s = (step s e).bind (run es) := rfl

theorem run_append (a b : List Event) (s : State) :
    run (a ++ b) s = (run a s).bind (run b) := by
  induction a generalizing s with
  | nil => simp [run]
  | cons e es ih =>
    simp only [List.cons_append, run_cons]
    cases step s e with
    | none => rfl
    | some s1 => simpa using ih s1

theorem store_same {α : Type} (m : Nat → α) (k : Nat) (v : α) : store m k v k = v := by
  simp [store]

theorem store_other {α : Type} (m : Nat → α) (k i : Nat) (v : α) (h : i ≠ k) :
    store m k v i = m i := by
  simp [store, h]

/-- The return half of a hook changes neither a flag, nor the count, nor the
limit, nor the target of the globals. -/
theorem leave_globals (s : State) (env : RetEnv) :
    (profiler_execute_leave s env).pg.enabled = s.pg.enabled ∧
      (profiler_execute_leave s env).pg.memory = s.pg.memory ∧
      (profiler_execute_leave s env).pg.output = s.pg.output ∧
      (profiler_execute_leave s env).pg.reset = s.pg.reset ∧
      (profiler_execute_leave s env).pg.frame = s.pg.frame ∧
      (profiler_execute_leave s env).pg.limit = s.pg.limit := by
  unfold profiler_execute_leave
  rcases hp : s.pending with _ | ⟨_ | ed, rest⟩
  · simp
  · simp
  · simp only [profiler_record_return]
    rcases hq : ed.prev_execute_data with _ | prev
    · simp
    · rcases hk : s.profiler_frame prev with _ | k <;> simp [hk]

/-- A hook that does not record changes nothing but the waiting activations. -/
theorem enter_skip (s : State) (ed : Option zend_execute_data) (env : CallEnv)
    (h : ∀ e, ed = some e →
      (s.pg.enabled && decide (s.pg.frame < s.pg.limit) && e.func.isSome) = false) :
    profiler_execute_enter s ed env = some { s with pending := none :: s.pending } := by
  unfold profiler_execute_enter
  rcases ed with _ | e
  · rfl
  · simp only [h e rfl]
    rfl

/-- A hook that records, called from a caller: the next slot is stamped, its
index left in the caller's slot, the count raised by one. -/
theorem enter_record (s : State) (e : zend_execute_data) (env : CallEnv)
    (func : zend_function) (prev : Nat)
    (hen : s.pg.enabled = true) (hlt : s.pg.frame < s.pg.limit)
    (hf : e.func = some func) (hp : e.prev_execute_data = some prev) :
    profiler_execute_enter s (some e) env =
      some { pg := { s.pg with
                      frame := s.pg.frame + 1,
                      frames := store s.pg.frames s.pg.frame
                        (stamp s.pg.memory func env (s.pg.frames s.pg.frame)) },
             profiler_frame := store s.profiler_frame prev (some s.pg.frame),
             pending := some e :: s.pending } := by
  simp [profiler_execute_enter, profiler_record_call, hen, hlt, hf, hp]

/-- A hook that records without a caller execute_data faults. -/
theorem enter_fault (s : State) (e : zend_execute_data) (env : CallEnv)
    (hen : s.pg.enabled = true) (hlt : s.pg.frame < s.pg.limit)
    (hf : e.func.isSome = true) (hp : e.prev_execute_data = none) :
    profiler_execute_enter s (some e) env = none := by
  rcases hfn : e.func with _ | func
  · simp [hfn] at hf
  · simp [profiler_execute_enter, profiler_record_call, hen, hlt, hfn, hp]

/-- Request shutdown touches the output target and the reset flag only. -/
theorem shutdown_globals (can_open : zend_string → Bool) (pid : Int)
    (pg : zend_profiler_globals) :
    (PHP_RSHUTDOWN_FUNCTION can_open pid pg).pg.enabled = pg.enabled ∧
      (PHP_RSHUTDOWN_FUNCTION can_open pid pg).pg.memory = pg.memory ∧
      (PHP_RSHUTDOWN_FUNCTION can_open pid pg).pg.frame = pg.frame ∧
      (PHP_RSHUTDOWN_FUNCTION can_open pid pg).pg.limit = pg.limit ∧
      (PHP_RSHUTDOWN_FUNCTION can_open pid pg).pg.frames = pg.frames := by
  rcases ho : pg.output with _ | path
  · simp [PHP_RSHUTDOWN_FUNCTION, ho]
  · cases hc : can_open path <;> cases hr : pg.reset <;>
      simp [PHP_RSHUTDOWN_FUNCTION, ho, hc, hr]

/-- The three outcomes of the call half of a hook. -/
theorem enter_cases (s : State) (ed : Option zend_execute_data) (env : CallEnv) :
    profiler_execute_enter s ed env = some { s with pending := none :: s.pending } ∨
      profiler_execute_enter s ed env = none ∨
      ∃ e func prev, ed = some e ∧ s.pg.enabled = true ∧ s.pg.frame < s.pg.limit ∧
        e.func = some func ∧ e.prev_execute_data = some prev ∧
        profiler_execute_enter s ed env =
          some { pg := { s.pg with
                          frame := s.pg.frame + 1,
                          frames := store s.pg.frames s.pg.frame
                            (stamp s.pg.memory func env (s.pg.frames s.pg.frame)) },
                 profiler_frame := store s.profiler_frame prev (some s.pg.frame),
                 pending := some e :: s.pending } := by
  rcases ed with _ | e
  · exact Or.inl rfl
  · by_cases hc : (s.pg.enabled && decide (s.pg.frame < s.pg.limit) && e.func.isSome) = true
    · simp only [Bool.and_eq_true, decide_eq_true_eq] at hc
      obtain ⟨⟨hen, hlt⟩, hf⟩ := hc
      rcases hp : e.prev_execute_data with _ | prev
      · exact Or.inr (Or.inl (enter_fault s e env hen hlt hf hp))
      · rcases hfn : e.func with _ | func
        · simp [hfn] at hf
        · exact Or.inr (Or.inr ⟨e, func, prev, rfl, hen, hlt, hfn, hp,
            enter_record s e env func prev hen hlt hfn hp⟩)
    · refine Or.inl (enter_skip s (some e) env ?_)
      intro e1 he
      cases he
      simpa using hc

/-- One event keeps the limit and keeps the count within it. -/
theorem step_capacity (s s1 : State) (e : Event) (h : step s e = some s1)
    (hle : s.pg.frame ≤ s.pg.limit) :
    s1.pg.limit = s.pg.limit ∧ s1.pg.frame ≤ s1.pg.limit := by
  have enter : ∀ ed env, profiler_execute_enter s ed env = some s1 →
      s1.pg.limit = s.pg.limit ∧ s1.pg.frame ≤ s1.pg.limit := by
    intro ed env h
    rcases enter_cases s ed env with h1 | h1 | ⟨e, func, prev, -, -, hlt, -, -, h1⟩
    · rw [h1] at h
      simp only [Option.some.injEq] at h
      subst h
      exact ⟨rfl, hle⟩
    · rw [h1] at h
      cases h
    · rw [h1] at h
      simp only [Option.some.injEq] at h
      subst h
      exact ⟨rfl, hlt⟩
  cases e with
  | rinit en m o =>
    simp only [step, Option.some.injEq] at h
    subst h
    simp [PHP_RINIT_FUNCTION]
  | rshutdown can_open pid =>
    simp only [step, Option.some.injEq] at h
    subst h
    obtain ⟨-, -, hf, hl, -⟩ := shutdown_globals can_open pid s.pg
    simp only [hf, hl]
    exact ⟨trivial, hle⟩
  | enable =>
    simp only [step, Option.some.injEq] at h
    subst h
    simp only [profiler_enable]
    cases s.pg.enabled <;> exact ⟨rfl, hle⟩
  | disable =>
    simp only [step, Option.some.injEq] at h
    subst h
    simp only [profiler_disable]
    cases s.pg.enabled <;> exact ⟨rfl, hle⟩
  | output fpath =>
    simp only [step, Option.some.injEq] at h
    subst h
    exact ⟨rfl, hle⟩
  | call ed env => exact enter ed env h
  | call_internal ed env => exact enter ed env h
  | ret env =>
    simp only [step, Option.some.injEq] at h
    subst h
    obtain ⟨-, -, -, -, hf, hl⟩ := leave_globals s env
    rw [hf, hl]
    exact ⟨rfl, hle⟩

/-- A sequence of events keeps the limit and keeps the count within it. -/
theorem run_capacity (evs : List Event) :
    ∀ (s s1 : State), run evs s = some s1 → s.pg.frame ≤ s.pg.limit →
      s1.pg.limit = s.pg.limit ∧ s1.pg.frame ≤ s1.pg.limit := by
  induction evs with
  | nil =>
    intro s s1 h hle
    simp only [run, Option.some.injEq] at h
    subst h
    exact ⟨rfl, hle⟩
  | cons e es ih =>
    intro s s1 h hle
    rw [run_cons] at h
    rcases hs : step s e with _ | s2
    · simp [hs] at h
    · rw [hs] at h
      obtain ⟨h1, h2⟩ := step_capacity s s2 e hs hle
      obtain ⟨h3, h4⟩ := ih s2 s1 h h2
      exact ⟨h3.trans h1, h4⟩

/-! ## Capacity -/

/-- C1: in every state reached from the constructed globals by a sequence of
request init, request shutdown, enable, disable, set-output, call and return
events, the count of recorded frames is at most `PROFILER_MAX_FRAMES`; and
when the count has reached it, a call event through either hook does not
fault, stores no index in any `profiler_frame` slot, and leaves the globals,
so every frame and the count, as they are. -/
theorem capacity_invariant (max_frames : Nat) (slots : Nat → Option Nat)
    (evs : List Event) (s : State) (h : run evs (initial max_frames slots) = some s) :
    0 ≤ s.pg.frame ∧ s.pg.frame ≤ max_frames ∧ s.pg.limit = max_frames ∧
      (s.pg.frame = max_frames →
        ∀ (ed : Option zend_execute_data) (env : CallEnv),
          step s (Event.call ed env) = some { s with pending := none :: s.pending } ∧
          step s (Event.call_internal ed env) = some { s with pending := none :: s.pending }) := by
  obtain ⟨hl, hf⟩ := run_capacity evs (initial max_frames slots) s h (Nat.zero_le _)
  have hl1 : s.pg.limit = max_frames := hl
  refine ⟨Nat.zero_le _, hl1 ▸ hf, hl1, ?_⟩
  intro hfull ed env
  have hskip : ∀ e, ed = some e →
      (s.pg.enabled && decide (s.pg.frame < s.pg.limit) && e.func.isSome) = false := by
    intro e _
    have : ¬ s.pg.frame < s.pg.limit := by omega
    simp [this]
  exact ⟨enter_skip s ed env hskip, enter_skip s ed env hskip⟩

/-- Witness of C1: capacity 1, enabled by INI, call A, call B inside it, both
returns: the run does not fault and the count stays within 1. -/
theorem capacity_invariant_witness :
    ∃ s, run [Event.rinit true true (some "/tmp/p"),
              Event.call (some ⟨some ⟨some "A", none⟩, some 0⟩) ⟨1, some "a.php", 10, 100⟩,
              Event.call (some ⟨some ⟨some "B", none⟩, some 1⟩) ⟨2, some "a.php", 12, 110⟩,
              Event.ret ⟨120, 11⟩, Event.ret ⟨130, 9⟩] (initial 1 (fun _ => none)) = some s ∧
      s.pg.frame ≤ 1 := by
  have hsome : (run [Event.rinit true true (some "/tmp/p"),
              Event.call (some ⟨some ⟨some "A", none⟩, some 0⟩) ⟨1, some "a.php", 10, 100⟩,
              Event.call (some ⟨some ⟨some "B", none⟩, some 1⟩) ⟨2, some "a.php", 12, 110⟩,
              Event.ret ⟨120, 11⟩, Event.ret ⟨130, 9⟩] (initial 1 (fun _ => none))).isSome = true :=
    rfl
  obtain ⟨s, hs⟩ := Option.isSome_iff_exists.mp hsome
  exact ⟨s, hs, (capacity_invariant 1 (fun _ => none) _ s hs).2.1⟩


/-! ## The return handler -/

/-- The return handler on a caller slot that holds an index. -/
theorem return_some (s : State) (ed : zend_execute_data) (env : RetEnv) (prev k : Nat)
    (hp : ed.prev_execute_data = some prev) (hk : s.profiler_frame prev = some k) :
    profiler_record_return s ed env =
      { s with
          pg := { s.pg with
                  frames := store s.pg.frames k (finalize s.pg.memory env (s.pg.frames k)) },
          profiler_frame := store s.profiler_frame prev none } := by
  simp [profiler_record_return, hp, hk]

/-- The return handler on an empty caller slot does nothing. -/
theorem return_none (s : State) (ed : zend_execute_data) (env : RetEnv) (prev : Nat)
    (hp : ed.prev_execute_data = some prev) (hk : s.profiler_frame prev = none) :
    profiler_record_return s ed env = s := by
  simp [profiler_record_return, hp, hk]

/-- C4: on a caller context whose slot holds the index `k`, the return
handler finalises frame `k`, leaves every other frame and every other slot,
and clears the slot; run a second time on the same context it changes
nothing at all, so the result of two runs is the result of one. -/
theorem no_double_finalize (s : State) (ed : zend_execute_data) (env1 env2 : RetEnv)
    (prev k : Nat) (hp : ed.prev_execute_data = some prev)
    (hk : s.profiler_frame prev = some k) :
    (profiler_record_return s ed env1).pg.frames k =
        finalize s.pg.memory env1 (s.pg.frames k) ∧
      (∀ i, i ≠ k → (profiler_record_return s ed env1).pg.frames i = s.pg.frames i) ∧
      (profiler_record_return s ed env1).profiler_frame prev = none ∧
      (∀ c, c ≠ prev →
        (profiler_record_return s ed env1).profiler_frame c = s.profiler_frame c) ∧
      profiler_record_return (profiler_record_return s ed env1) ed env2 =
        profiler_record_return s ed env1 := by
  have h1 := return_some s ed env1 prev k hp hk
  have hnone : (profiler_record_return s ed env1).profiler_frame prev = none := by
    rw [h1]
    exact store_same _ _ _
  refine ⟨?_, ?_, hnone, ?_, return_none _ ed env2 prev hp hnone⟩
  · rw [h1]
    exact store_same _ _ _
  · intro i hi
    rw [h1]
    exact store_other _ _ _ _ hi
  · intro c hc
    rw [h1]
    exact store_other _ _ _ _ hc

/-- Witness of C4: frame 0 stamped at tick 100 is finalised at tick 130 to
30; a second run at tick 500 leaves it at 30. -/
theorem no_double_finalize_witness :
    ((profiler_record_return
        (profiler_record_return
          { pg := { profiler_globals_ctor 2 with
                      frame := 1, memory := false,
                      frames := fun _ => ⟨⟨some "a.php", 3⟩, ⟨some "f", none, 0, 100⟩⟩ },
            profiler_frame := fun c => if c = 5 then some 0 else none,
            pending := [] }
          ⟨some ⟨some "f", none⟩, some 5⟩ ⟨130, 0⟩)
        ⟨some ⟨some "f", none⟩, some 5⟩ ⟨500, 0⟩).pg.frames 0).call.cpu = 30 := by
  rw [(no_double_finalize
        { pg := { profiler_globals_ctor 2 with
                    frame := 1, memory := false,
                    frames := fun _ => ⟨⟨some "a.php", 3⟩, ⟨some "f", none, 0, 100⟩⟩ },
          profiler_frame := fun c => if c = 5 then some 0 else none,
          pending := [] }
        ⟨some ⟨some "f", none⟩, some 5⟩ ⟨130, 0⟩ ⟨500, 0⟩ 5 0 rfl rfl).2.2.2.2]
  decide

/-! ## Disabled engine -/

/-- With the engine disabled, call and return events do not fault and keep
the flags, the count and the target. -/
theorem run_disabled (evs : List Event) :
    ∀ (s : State), s.pg.enabled = false → (∀ e ∈ evs, Event.isCallRet e = true) →
      ∃ s1, run evs s = some s1 ∧ s1.pg.enabled = false ∧ s1.pg.frame = s.pg.frame ∧
        s1.pg.memory = s.pg.memory ∧ s1.pg.output = s.pg.output := by
  induction evs with
  | nil =>
    intro s hd _
    exact ⟨s, rfl, hd, rfl, rfl, rfl⟩
  | cons e es ih =>
    intro s hd hev
    have hes : ∀ e ∈ es, Event.isCallRet e = true := fun e he => hev e (List.mem_cons_of_mem _ he)
    have he := hev e (List.mem_cons_self _ _)
    have hskip : ∀ (ed : Option zend_execute_data) (e1 : zend_execute_data), ed = some e1 →
        (s.pg.enabled && decide (s.pg.frame < s.pg.limit) && e1.func.isSome) = false := by
      intro _ _ _
      simp [hd]
    have enter : ∀ ed env, step s e = profiler_execute_enter s ed env →
        ∃ s1, run (e :: es) s = some s1 ∧ s1.pg.enabled = false ∧ s1.pg.frame = s.pg.frame ∧
          s1.pg.memory = s.pg.memory ∧ s1.pg.output = s.pg.output := by
      intro ed env hstep
      rw [run_cons, hstep, enter_skip s ed env (hskip ed)]
      exact ih { s with pending := none :: s.pending } hd hes
    cases e with
    | call ed env => exact enter ed env rfl
    | call_internal ed env => exact enter ed env rfl
    | ret env =>
      obtain ⟨h1, h2, h3, -, h5, -⟩ := leave_globals s env
      obtain ⟨s1, hr, g1, g2, g3, g4⟩ := ih (profiler_execute_leave s env) (h1.trans hd) hes
      exact ⟨s1, hr, g1, g2.trans h5, g3.trans h2, g4.trans h3⟩
    | rinit _ _ _ => simp [Event.isCallRet] at he
    | rshutdown _ _ => simp [Event.isCallRet] at he
    | enable => simp [Event.isCallRet] at he
    | disable => simp [Event.isCallRet] at he
    | output _ => simp [Event.isCallRet] at he

/-- C7: from an empty store with the engine disabled, every sequence of call
and return events runs without fault and leaves the count at zero (the
engine disabled, memory setting and target as they were); request shutdown to
a target that opens then writes the four header lines and nothing else. -/
theorem disabled_engine (evs : List Event) (s : State)
    (hd : s.pg.enabled = false) (h0 : s.pg.frame = 0)
    (hev : ∀ e ∈ evs, Event.isCallRet e = true) :
    ∃ s1, run evs s = some s1 ∧ s1.pg.frame = 0 ∧ s1.pg.enabled = false ∧
      s1.pg.memory = s.pg.memory ∧ s1.pg.output = s.pg.output ∧
      ∀ (can_open : zend_string → Bool) (pid : Int) (path : zend_string),
        s1.pg.output = some path → can_open path = true →
        (PHP_RSHUTDOWN_FUNCTION can_open pid s1.pg).written =
          some (report_header s1.pg.memory pid) := by
  obtain ⟨s1, hr, h1, h2, h3, h4⟩ := run_disabled evs s hd hev
  refine ⟨s1, hr, h2.trans h0, h1, h3, h4, ?_⟩
  intro can_open pid path ho hc
  have hz : s1.pg.frame = 0 := h2.trans h0
  simp [PHP_RSHUTDOWN_FUNCTION, ho, hc, write_report_eq, recorded, hz, report_layout, concat]

/-- Witness of C7: two nested calls and their returns on a disabled engine
with the configured target; the report is the header. -/
theorem disabled_engine_witness :
    ∃ s1, run [Event.call (some ⟨some ⟨some "A", none⟩, some 0⟩) ⟨1, some "a.php", 10, 100⟩,
               Event.call_internal (some ⟨some ⟨some "B", none⟩, none⟩) ⟨2, some "a.php", 12, 110⟩,
               Event.ret ⟨120, 11⟩, Event.ret ⟨130, 9⟩]
            { pg := PHP_RINIT_FUNCTION false false (some "/tmp/p") (profiler_globals_ctor 3),
              profiler_frame := fun _ => none, pending := [] } = some s1 ∧
      s1.pg.frame = 0 ∧
      (PHP_RSHUTDOWN_FUNCTION (fun _ => true) 42 s1.pg).written =
        some "version: 1\ncreator: profiler\npid: 42\nevents: cpu\n" := by
  obtain ⟨s1, hr, h0, -, hm, ho, hw⟩ := disabled_engine
    [Event.call (some ⟨some ⟨some "A", none⟩, some 0⟩) ⟨1, some "a.php", 10, 100⟩,
     Event.call_internal (some ⟨some ⟨some "B", none⟩, none⟩) ⟨2, some "a.php", 12, 110⟩,
     Event.ret ⟨120, 11⟩, Event.ret ⟨130, 9⟩]
    { pg := PHP_RINIT_FUNCTION false false (some "/tmp/p") (profiler_globals_ctor 3),
      profiler_frame := fun _ => none, pending := [] } rfl rfl (by simp [Event.isCallRet])
  refine ⟨s1, hr, h0, ?_⟩
  rw [hw (fun _ => true) 42 "/tmp/p" (ho.trans rfl) rfl, hm]
  rfl


/-! ## Well-nested sequences -/

theorem preserves_refl (busy : List Nat) (s : State) : Preserves busy s s :=
  ⟨rfl, Nat.le_refl _, fun _ _ => rfl, fun _ _ => rfl, rfl, rfl⟩

theorem preserves_trans (busy : List Nat) (s s1 s2 : State)
    (h1 : Preserves busy s s1) (h2 : Preserves busy s1 s2) : Preserves busy s s2 := by
  obtain ⟨a1, a2, a3, a4, a5, a6⟩ := h1
  obtain ⟨b1, b2, b3, b4, b5, b6⟩ := h2
  refine ⟨b1.trans a1, Nat.le_trans a2 b2, ?_, ?_, b5.trans a5, b6.trans a6⟩
  · intro i hi
    rw [b3 i (Nat.lt_of_lt_of_le hi a2), a3 i hi]
  · intro c hc
    rw [b4 c hc, a4 c hc]

/-- The call half of a hook for a call from a caller: it records or it skips. -/
theorem enter_from_caller (s : State) (e : zend_execute_data) (env : CallEnv) (prev : Nat)
    (hp : e.prev_execute_data = some prev) :
    ((s.pg.enabled && decide (s.pg.frame < s.pg.limit) && e.func.isSome) = true ∧
      ∃ func, e.func = some func ∧
        profiler_execute_enter s (some e) env =
          some { pg := { s.pg with
                          frame := s.pg.frame + 1,
                          frames := store s.pg.frames s.pg.frame
                            (stamp s.pg.memory func env (s.pg.frames s.pg.frame)) },
                 profiler_frame := store s.profiler_frame prev (some s.pg.frame),
                 pending := some e :: s.pending }) ∨
    ((s.pg.enabled && decide (s.pg.frame < s.pg.limit) && e.func.isSome) = false ∧
      profiler_execute_enter s (some e) env = some { s with pending := none :: s.pending }) := by
  by_cases hc : (s.pg.enabled && decide (s.pg.frame < s.pg.limit) && e.func.isSome) = true
  · left
    refine ⟨hc, ?_⟩
    simp only [Bool.and_eq_true, decide_eq_true_eq] at hc
    obtain ⟨⟨hen, hlt⟩, hf⟩ := hc
    rcases hfn : e.func with _ | func
    · simp [hfn] at hf
    · exact ⟨func, rfl, enter_record s e env func prev hen hlt hfn hp⟩
  · right
    have hc1 : (s.pg.enabled && decide (s.pg.frame < s.pg.limit) && e.func.isSome) = false := by
      simpa using hc
    refine ⟨hc1, enter_skip s (some e) env ?_⟩
    intro e1 he
    cases he
    exact hc1

/-- A call from a caller, a body that preserves, and the return: the states
in between, in both branches of the hook. -/
theorem call_body_return (busy : List Nat) (s : State) (e : zend_execute_data) (prev : Nat)
    (envc : CallEnv) (body : List Event) (envr : RetEnv)
    (hp : e.prev_execute_data = some prev)
    (hbody : ∀ s1, ∃ s2, run body s1 = some s2 ∧ Preserves (prev :: busy) s1 s2) :
    ∃ s1 s2, profiler_execute_enter s (some e) envc = some s1 ∧ run body s1 = some s2 ∧
      Preserves (prev :: busy) s1 s2 ∧
      (((s.pg.enabled && decide (s.pg.frame < s.pg.limit) && e.func.isSome) = true ∧
          (∃ func, e.func = some func ∧
            s1 = { pg := { s.pg with
                            frame := s.pg.frame + 1,
                            frames := store s.pg.frames s.pg.frame
                              (stamp s.pg.memory func envc (s.pg.frames s.pg.frame)) },
                   profiler_frame := store s.profiler_frame prev (some s.pg.frame),
                   pending := some e :: s.pending }) ∧
          profiler_execute_leave s2 envr =
            { pg := { s2.pg with
                      frames := store s2.pg.frames s.pg.frame
                        (finalize s2.pg.memory envr (s2.pg.frames s.pg.frame)) },
              profiler_frame := store s2.profiler_frame prev none,
              pending := s.pending }) ∨
        ((s.pg.enabled && decide (s.pg.frame < s.pg.limit) && e.func.isSome) = false ∧
          s1 = { s with pending := none :: s.pending } ∧
          profiler_execute_leave s2 envr = { s2 with pending := s.pending })) := by
  rcases enter_from_caller s e envc prev hp with ⟨hc, func, hf, h1⟩ | ⟨hc, h1⟩
  · obtain ⟨s2, hr, hpres⟩ := hbody _
    refine ⟨_, s2, h1, hr, hpres, Or.inl ⟨hc, ⟨func, hf, rfl⟩, ?_⟩⟩
    obtain ⟨p1, -, -, p4, -, -⟩ := hpres
    have hkey : s2.profiler_frame prev = some s.pg.frame := by
      rw [p4 prev (List.mem_cons_self _ _)]
      exact store_same _ _ _
    have hpend : s2.pending = some e :: s.pending := p1
    simp only [profiler_execute_leave, hpend]
    exact return_some _ e envr prev s.pg.frame hp hkey
  · obtain ⟨s2, hr, hpres⟩ := hbody _
    refine ⟨_, s2, h1, hr, hpres, Or.inr ⟨hc, rfl, ?_⟩⟩
    obtain ⟨p1, -, -, -, -, -⟩ := hpres
    have hpend : s2.pending = none :: s.pending := p1
    simp only [profiler_execute_leave, hpend]

/-- A call from a caller not in `busy`, its body and its return preserve. -/
theorem call_preserves (busy : List Nat) (s : State) (e : zend_execute_data) (prev : Nat)
    (envc : CallEnv) (body : List Event) (envr : RetEnv)
    (hp : e.prev_execute_data = some prev) (hnb : prev ∉ busy)
    (hbody : ∀ s1, ∃ s2, run body s1 = some s2 ∧ Preserves (prev :: busy) s1 s2) :
    ∃ s1 s2, profiler_execute_enter s (some e) envc = some s1 ∧ run body s1 = some s2 ∧
      Preserves busy s (profiler_execute_leave s2 envr) := by
  obtain ⟨s1, s2, h1, hr, ⟨p1, p2, p3, p4, p5, p6⟩, hcase⟩ :=
    call_body_return busy s e prev envc body envr hp hbody
  refine ⟨s1, s2, h1, hr, ?_⟩
  rcases hcase with ⟨-, ⟨func, -, hs1⟩, hl⟩ | ⟨-, hs1, hl⟩
  · rw [hl]
    subst hs1
    refine ⟨rfl, Nat.le_trans (Nat.le_succ _) p2, ?_, ?_, p5, p6⟩
    · intro i hi
      show store s2.pg.frames s.pg.frame _ i = s.pg.frames i
      rw [store_other _ _ _ _ (Nat.ne_of_lt hi), p3 i (Nat.lt_succ_of_lt hi)]
      exact store_other _ _ _ _ (Nat.ne_of_lt hi)
    · intro c hc
      have hne : c ≠ prev := fun h => hnb (h ▸ hc)
      show store s2.profiler_frame prev none c = s.profiler_frame c
      rw [store_other _ _ _ _ hne, p4 c (List.mem_cons_of_mem _ hc)]
      exact store_other _ _ _ _ hne
  · rw [hl]
    subst hs1
    exact ⟨rfl, p2, p3, fun c hc => p4 c (List.mem_cons_of_mem _ hc), p5, p6⟩

/-- A well-nested sequence whose keys are kept in the callers' contexts runs
without fault and preserves. -/
theorem nest_run (t : Nest) :
    ∀ (busy : List Nat) (s : State), Nest.callers_ok busy t = true →
      ∃ s1, run (Nest.events t) s = some s1 ∧ Preserves busy s s1 := by
  induction t with
  | done =>
    intro busy s _
    exact ⟨s, rfl, preserves_refl busy s⟩
  | toggle b rest ih =>
    intro busy s hok
    simp only [Nest.callers_ok] at hok
    cases b
    · obtain ⟨s1, hr, hpres⟩ := ih busy { s with pg := (profiler_disable s.pg).1 } hok
      refine ⟨s1, ?_, preserves_trans busy s _ s1 ?_ hpres⟩
      · simpa [Nest.events, run, step] using hr
      · simp only [profiler_disable]
        cases s.pg.enabled <;> exact preserves_refl busy s
    · obtain ⟨s1, hr, hpres⟩ := ih busy { s with pg := (profiler_enable s.pg).1 } hok
      refine ⟨s1, ?_, preserves_trans busy s _ s1 ?_ hpres⟩
      · simpa [Nest.events, run, step] using hr
      · simp only [profiler_enable]
        cases s.pg.enabled <;> exact preserves_refl busy s
  | call internal e envc body envr rest ihb ihr =>
    intro busy s hok
    simp only [Nest.callers_ok] at hok
    rcases hp : e.prev_execute_data with _ | prev
    · simp [hp] at hok
    · simp only [hp, Bool.and_eq_true, Bool.not_eq_true', List.contains_eq_any_beq,
        List.any_eq_false, beq_iff_eq] at hok
      obtain ⟨⟨hnb, hb⟩, hrest⟩ := hok
      have hnb1 : prev ∉ busy := fun hmem => hnb prev hmem rfl
      obtain ⟨s1, s2, h1, hr, hpres⟩ := call_preserves busy s e prev envc (Nest.events body) envr
        hp hnb1 (fun s1 => ihb (prev :: busy) s1 hb)
      obtain ⟨s4, hr4, hpres4⟩ := ihr busy (profiler_execute_leave s2 envr) hrest
      refine ⟨s4, ?_, preserves_trans busy s _ s4 hpres hpres4⟩
      have hstep : step s (if internal = true then Event.call_internal (some e) envc
          else Event.call (some e) envc) = some s1 := by
        cases internal <;> exact h1
      simp only [Nest.events]
      rw [run_cons, hstep, Option.some_bind, run_append, hr, Option.some_bind, run_cons]
      exact hr4


/-! ## Call and matching return -/

/-- C3: take a call from a caller context `prev`, a well-nested body whose
keys are kept in the callers' contexts (calls nested to any depth, recursion
included) and the call's return.  Nothing faults.  If the call was recorded
(engine enabled, store not full, function present) it created exactly the
frame at the old count; the body, with all the returns in it, leaves that
frame and the key in `prev` untouched; the return finalises exactly that
frame, changes no other frame and clears the key.  If the call was not
recorded, neither the call nor its return changes the globals or any key, so
no frame is modified. -/
theorem return_finalizes_matching_call (busy : List Nat) (s : State) (e : zend_execute_data)
    (prev : Nat) (envc : CallEnv) (body : Nest) (envr : RetEnv)
    (hp : e.prev_execute_data = some prev)
    (hb : Nest.callers_ok (prev :: busy) body = true) :
    ∃ s1 s2, profiler_execute_enter s (some e) envc = some s1 ∧
      run (Nest.events body) s1 = some s2 ∧
      run (Event.call (some e) envc :: (Nest.events body ++ [Event.ret envr])) s =
        some (profiler_execute_leave s2 envr) ∧
      run (Event.call_internal (some e) envc :: (Nest.events body ++ [Event.ret envr])) s =
        some (profiler_execute_leave s2 envr) ∧
      ((s.pg.enabled && decide (s.pg.frame < s.pg.limit) && e.func.isSome) = true →
        s1.pg.frame = s.pg.frame + 1 ∧
        s1.profiler_frame prev = some s.pg.frame ∧
        (∀ i, i ≠ s.pg.frame → s1.pg.frames i = s.pg.frames i) ∧
        s2.pg.frames s.pg.frame = s1.pg.frames s.pg.frame ∧
        s2.profiler_frame prev = some s.pg.frame ∧
        (profiler_execute_leave s2 envr).pg.frames s.pg.frame =
          finalize s2.pg.memory envr (s1.pg.frames s.pg.frame) ∧
        (∀ i, i ≠ s.pg.frame → (profiler_execute_leave s2 envr).pg.frames i = s2.pg.frames i) ∧
        (profiler_execute_leave s2 envr).pg.frame = s2.pg.frame ∧
        (profiler_execute_leave s2 envr).profiler_frame prev = none) ∧
      ((s.pg.enabled && decide (s.pg.frame < s.pg.limit) && e.func.isSome) = false →
        s1.pg = s.pg ∧ s1.profiler_frame = s.profiler_frame ∧
        (profiler_execute_leave s2 envr).pg = s2.pg ∧
        (profiler_execute_leave s2 envr).profiler_frame = s2.profiler_frame) := by
  obtain ⟨s1, s2, h1, hr, ⟨p1, p2, p3, p4, p5, p6⟩, hcase⟩ :=
    call_body_return busy s e prev envc (Nest.events body) envr hp
      (fun s1 => nest_run body (prev :: busy) s1 hb)
  have hrun : run (Event.call (some e) envc :: (Nest.events body ++ [Event.ret envr])) s =
      some (profiler_execute_leave s2 envr) := by
    have hstep : step s (Event.call (some e) envc) = some s1 := h1
    rw [run_cons, hstep, Option.some_bind, run_append, hr, Option.some_bind]
    rfl
  have hrun1 : run (Event.call_internal (some e) envc ::
      (Nest.events body ++ [Event.ret envr])) s = some (profiler_execute_leave s2 envr) := by
    have hstep : step s (Event.call_internal (some e) envc) = some s1 := h1
    rw [run_cons, hstep, Option.some_bind, run_append, hr, Option.some_bind]
    rfl
  refine ⟨s1, s2, h1, hr, hrun, hrun1, ?_, ?_⟩
  · intro hc
    rcases hcase with ⟨-, ⟨func, -, hs1⟩, hl⟩ | ⟨hc1, -, -⟩
    · have hk : s2.pg.frames s.pg.frame = s1.pg.frames s.pg.frame := by
        apply p3
        rw [hs1]
        exact Nat.lt_succ_self _
      have hkey1 : s1.profiler_frame prev = some s.pg.frame := by
        rw [hs1]
        exact store_same _ _ _
      refine ⟨by rw [hs1], hkey1, ?_, hk, (p4 prev (List.mem_cons_self _ _)).trans hkey1,
        ?_, ?_, by rw [hl], ?_⟩
      · intro i hi
        rw [hs1]
        exact store_other _ _ _ _ hi
      · rw [hl, ← hk]
        exact store_same _ _ _
      · intro i hi
        rw [hl]
        exact store_other _ _ _ _ hi
      · rw [hl]
        exact store_same _ _ _
    · rw [hc1] at hc
      cases hc
  · intro hc
    rcases hcase with ⟨hc1, -, -⟩ | ⟨-, hs1, hl⟩
    · rw [hc1] at hc
      cases hc
    · refine ⟨by rw [hs1], by rw [hs1], by rw [hl], by rw [hl]⟩

/-- Witness of C3: capacity 1, call A from context 0, call B from context 1
inside it, return of B, return of A.  A is recorded; B's call leaves the
store as it is and so does B's return; A's return finalises frame 0: one
frame, with cpu 130 - 100. -/
theorem return_finalizes_matching_call_witness :
    (∃ s1 s2,
      profiler_execute_enter
        { pg := { profiler_globals_ctor 1 with enabled := true },
          profiler_frame := fun _ => none, pending := [] }
        (some ⟨some ⟨some "A", none⟩, some 0⟩) ⟨1, some "a.php", 10, 100⟩ = some s1 ∧
      run (Nest.events
        (Nest.call false ⟨some ⟨some "B", none⟩, some 1⟩ ⟨2, some "a.php", 12, 110⟩ Nest.done
          ⟨120, 11⟩ Nest.done)) s1 = some s2 ∧
      s2.pg.frames 0 = s1.pg.frames 0 ∧
      (profiler_execute_leave s2 ⟨130, 9⟩).pg.frame = s2.pg.frame) ∧
    (run [Event.call (some ⟨some ⟨some "A", none⟩, some 0⟩) ⟨1, some "a.php", 10, 100⟩,
          Event.call (some ⟨some ⟨some "B", none⟩, some 1⟩) ⟨2, some "a.php", 12, 110⟩,
          Event.ret ⟨120, 11⟩, Event.ret ⟨130, 9⟩]
        { pg := { profiler_globals_ctor 1 with enabled := true },
          profiler_frame := fun _ => none, pending := [] }).map
      (fun s => (s.pg.frame, s.pg.frames 0, s.profiler_frame 0)) =
      some (1, ⟨⟨some "a.php", 1⟩, ⟨some "A", none, 18446744073709551615, 30⟩⟩, none) := by
  refine ⟨?_, by decide⟩
  obtain ⟨s1, s2, h1, h2, -, -, hrec, -⟩ := return_finalizes_matching_call []
    { pg := { profiler_globals_ctor 1 with enabled := true },
      profiler_frame := fun _ => none, pending := [] }
    ⟨some ⟨some "A", none⟩, some 0⟩ 0 ⟨1, some "a.php", 10, 100⟩
    (Nest.call false ⟨some ⟨some "B", none⟩, some 1⟩ ⟨2, some "a.php", 12, 110⟩ Nest.done
      ⟨120, 11⟩ Nest.done) ⟨130, 9⟩ rfl rfl
  obtain ⟨-, -, -, g4, -, -, -, g8, -⟩ := hrec rfl
  exact ⟨s1, s2, h1, h2, g4, g8⟩


/-! ## Finalization values -/

/-- Unsigned 64-bit subtraction of an earlier from a later reading does not wrap. -/
theorem sub_no_wrap (t0 t1 : Nat) (h1 : t1 < WORD) (h : t0 ≤ t1) :
    (t1 % WORD + WORD - t0 % WORD % WORD) % WORD = t1 - t0 := by
  unfold WORD at *
  omega

/-- The 64-bit difference of two readings, read as signed, is their
difference when that fits a signed 64-bit number. -/
theorem signed_delta (m0 m1 : Nat) (h0 : m0 < WORD) (h1 : m1 < WORD)
    (hlo : -(2 ^ 63 : Int) ≤ (m1 : Int) - (m0 : Int)) (hhi : (m1 : Int) - (m0 : Int) < 2 ^ 63) :
    toSigned ((m1 % WORD + WORD - m0 % WORD % WORD) % WORD) = (m1 : Int) - (m0 : Int) := by
  unfold toSigned WORD at *
  split <;> omega

theorem stamp_cpu (memory : Bool) (func : zend_function) (env : CallEnv) (old : profile_t) :
    (stamp memory func env old).call.cpu = env.ticks % WORD := by
  cases memory <;> rfl

theorem stamp_memory (memory : Bool) (func : zend_function) (env : CallEnv) (old : profile_t) :
    (stamp memory func env old).call.memory =
      if memory then env.memory_usage % WORD else old.call.memory := by
  cases memory <;> rfl

theorem finalize_cpu (memory : Bool) (env : RetEnv) (old : profile_t) :
    (finalize memory env old).call.cpu = (env.ticks % WORD + WORD - old.call.cpu % WORD) % WORD := by
  cases memory <;> rfl

theorem finalize_memory (memory : Bool) (env : RetEnv) (old : profile_t) :
    (finalize memory env old).call.memory =
      if memory then (env.memory_usage % WORD + WORD - old.call.memory % WORD) % WORD
      else old.call.memory := by
  cases memory <;> rfl

/-- C5, amended: a recorded call from a caller context stamps its frame with
the 64-bit readings `t0` (and `m0` when memory is tracked); after a
well-nested body its return at readings `t1`, `m1` leaves in the cpu field
the unsigned 64-bit difference, which is `t1 - t0` (no wraparound) whenever
`t0 ≤ t1`, and, when memory is tracked, in the memory field the 64-bit
difference, which read as signed equals `m1 - m0` and is negative exactly when
`m1 < m0`, provided `m1 - m0` fits a signed 64-bit number.  Without memory
tracking the memory field is not written. -/
theorem finalization_values (busy : List Nat) (s : State) (e : zend_execute_data)
    (prev : Nat) (envc : CallEnv) (body : Nest) (envr : RetEnv)
    (hp : e.prev_execute_data = some prev)
    (hb : Nest.callers_ok (prev :: busy) body = true)
    (hrec : (s.pg.enabled && decide (s.pg.frame < s.pg.limit) && e.func.isSome) = true)
    (ht0 : envc.ticks < WORD) (ht1 : envr.ticks < WORD)
    (hm0 : envc.memory_usage < WORD) (hm1 : envr.memory_usage < WORD) :
    ∃ s1 s2, profiler_execute_enter s (some e) envc = some s1 ∧
      run (Nest.events body) s1 = some s2 ∧
      (s1.pg.frames s.pg.frame).call.cpu = envc.ticks ∧
      ((profiler_execute_leave s2 envr).pg.frames s.pg.frame).call.cpu =
        (envr.ticks + WORD - envc.ticks) % WORD ∧
      (envc.ticks ≤ envr.ticks →
        ((profiler_execute_leave s2 envr).pg.frames s.pg.frame).call.cpu =
          envr.ticks - envc.ticks) ∧
      (s.pg.memory = true →
        (s1.pg.frames s.pg.frame).call.memory = envc.memory_usage ∧
        ((profiler_execute_leave s2 envr).pg.frames s.pg.frame).call.memory =
          (envr.memory_usage + WORD - envc.memory_usage) % WORD ∧
        (-(2 ^ 63 : Int) ≤ (envr.memory_usage : Int) - (envc.memory_usage : Int) →
          (envr.memory_usage : Int) - (envc.memory_usage : Int) < 2 ^ 63 →
          toSigned ((profiler_execute_leave s2 envr).pg.frames s.pg.frame).call.memory =
            (envr.memory_usage : Int) - (envc.memory_usage : Int) ∧
          (toSigned ((profiler_execute_leave s2 envr).pg.frames s.pg.frame).call.memory < 0 ↔
            envr.memory_usage < envc.memory_usage))) ∧
      (s.pg.memory = false →
        ((profiler_execute_leave s2 envr).pg.frames s.pg.frame).call.memory =
          (s.pg.frames s.pg.frame).call.memory) := by
  obtain ⟨s1, s2, h1, hr, ⟨p1, p2, p3, p4, p5, p6⟩, hcase⟩ :=
    call_body_return busy s e prev envc (Nest.events body) envr hp
      (fun s1 => nest_run body (prev :: busy) s1 hb)
  rcases hcase with ⟨-, ⟨func, -, hs1⟩, hl⟩ | ⟨hc1, -, -⟩
  · have hk : s2.pg.frames s.pg.frame = s1.pg.frames s.pg.frame := by
      apply p3
      rw [hs1]
      exact Nat.lt_succ_self _
    have hst : s1.pg.frames s.pg.frame = stamp s.pg.memory func envc (s.pg.frames s.pg.frame) := by
      rw [hs1]
      exact store_same _ _ _
    have hmem : s2.pg.memory = s.pg.memory := by
      rw [p5, hs1]
    have hfin : (profiler_execute_leave s2 envr).pg.frames s.pg.frame =
        finalize s.pg.memory envr (stamp s.pg.memory func envc (s.pg.frames s.pg.frame)) := by
      rw [hl, ← hst, ← hk, ← hmem]
      exact store_same _ _ _
    have hc0 : (s1.pg.frames s.pg.frame).call.cpu = envc.ticks := by
      rw [hst, stamp_cpu]
      exact Nat.mod_eq_of_lt ht0
    have hcpu : ((profiler_execute_leave s2 envr).pg.frames s.pg.frame).call.cpu =
        (envr.ticks + WORD - envc.ticks) % WORD := by
      rw [hfin, finalize_cpu, stamp_cpu, Nat.mod_mod, Nat.mod_eq_of_lt ht0, Nat.mod_eq_of_lt ht1]
    refine ⟨s1, s2, h1, hr, hc0, hcpu, ?_, ?_, ?_⟩
    · intro hle
      rw [hfin, finalize_cpu, stamp_cpu]
      exact sub_no_wrap envc.ticks envr.ticks ht1 hle
    · intro hm
      have hmw : ((profiler_execute_leave s2 envr).pg.frames s.pg.frame).call.memory =
          (envr.memory_usage % WORD + WORD - envc.memory_usage % WORD % WORD) % WORD := by
        rw [hfin, finalize_memory, stamp_memory, hm]
        simp
      refine ⟨?_, ?_, ?_⟩
      · rw [hst, stamp_memory, hm]
        simpa using Nat.mod_eq_of_lt hm0
      · rw [hmw, Nat.mod_mod, Nat.mod_eq_of_lt hm0, Nat.mod_eq_of_lt hm1]
      · intro hlo hhi
        rw [hmw, signed_delta envc.memory_usage envr.memory_usage hm0 hm1 hlo hhi]
        exact ⟨rfl, by omega⟩
    · intro hm
      rw [hfin, finalize_memory, stamp_memory, hm]
      simp
  · rw [hc1] at hrec
    cases hrec

/-- Witness of C5: stamped at tick 100 and usage 10, finalised after a nested
call at tick 130 and usage 9: cpu 30, memory -1 read as signed. -/
theorem finalization_values_witness :
    ∃ s1 s2,
      profiler_execute_enter
        { pg := { profiler_globals_ctor 2 with enabled := true },
          profiler_frame := fun _ => none, pending := [] }
        (some ⟨some ⟨some "A", none⟩, some 0⟩) ⟨1, some "a.php", 10, 100⟩ = some s1 ∧
      run (Nest.events
        (Nest.call false ⟨some ⟨some "B", none⟩, some 1⟩ ⟨2, some "a.php", 12, 110⟩ Nest.done
          ⟨120, 11⟩ Nest.done)) s1 = some s2 ∧
      ((profiler_execute_leave s2 ⟨130, 9⟩).pg.frames 0).call.cpu = 30 ∧
      toSigned ((profiler_execute_leave s2 ⟨130, 9⟩).pg.frames 0).call.memory = -1 := by
  obtain ⟨s1, s2, h1, h2, -, -, hcpu, hmem, -⟩ := finalization_values []
    { pg := { profiler_globals_ctor 2 with enabled := true },
      profiler_frame := fun _ => none, pending := [] }
    ⟨some ⟨some "A", none⟩, some 0⟩ 0 ⟨1, some "a.php", 10, 100⟩
    (Nest.call false ⟨some ⟨some "B", none⟩, some 1⟩ ⟨2, some "a.php", 12, 110⟩ Nest.done
      ⟨120, 11⟩ Nest.done) ⟨130, 9⟩ rfl rfl rfl (by decide) (by decide) (by decide) (by decide)
  exact ⟨s1, s2, h1, h2, hcpu (by decide), ((hmem rfl).2.2 (by decide) (by decide)).1⟩

/-- Counterexample to C5 as stated: memory tracked, usage 0 at the call and
2^63 at the return.  The memory field read as signed is -2^63: it is not the
difference 2^63 - 0, and it is negative although the usage did not go down. -/
theorem memory_delta_wraps :
    (run [Event.call (some ⟨some ⟨some "A", none⟩, some 0⟩) ⟨1, some "a.php", 0, 100⟩,
          Event.ret ⟨130, 2 ^ 63⟩]
        { pg := { profiler_globals_ctor 2 with enabled := true },
          profiler_frame := fun _ => none, pending := [] }).map
      (fun s => (s.pg.memory, toSigned (s.pg.frames 0).call.memory)) =
        some (true, -(2 ^ 63 : Int)) ∧
      -(2 ^ 63 : Int) ≠ ((2 ^ 63 : Nat) : Int) - ((0 : Nat) : Int) ∧
      -(2 ^ 63 : Int) < 0 ∧ ¬ ((2 ^ 63 : Nat) < 0) := by
  decide


/-! ## Frames in call order -/

theorem identity_stamp (memory : Bool) (func : zend_function) (env : CallEnv) (old : profile_t)
    (ed : zend_execute_data) (hf : ed.func = some func) :
    some (identity (stamp memory func env old)) = call_identity (some ed) env := by
  cases memory <;> simp [identity, stamp, call_identity, hf]

theorem identity_finalize (memory : Bool) (env : RetEnv) (old : profile_t) :
    identity (finalize memory env old) = identity old := by
  cases memory <;> rfl

/-- The return half of a hook changes the identity of no frame. -/
theorem leave_identity (s : State) (env : RetEnv) (i : Nat) :
    identity ((profiler_execute_leave s env).pg.frames i) = identity (s.pg.frames i) := by
  unfold profiler_execute_leave
  rcases hp : s.pending with _ | ⟨_ | ed, rest⟩
  · rfl
  · rfl
  · simp only [profiler_record_return]
    rcases hq : ed.prev_execute_data with _ | prev
    · rfl
    · rcases hk : s.profiler_frame prev with _ | k
      · simp [hk]
      · simp only [hk]
        by_cases hik : i = k
        · subst hik
          rw [store_same, identity_finalize]
        · rw [store_other _ _ _ _ hik]

/-- With the engine enabled and room for every call, a sequence of returns
and of calls of functions from callers records every call, in order, after
the frames already there. -/
theorem run_records_in_order (evs : List Event) :
    ∀ (s : State), s.pg.enabled = true → (∀ e ∈ evs, Event.from_caller e = true) →
      s.pg.frame + (call_identities evs).length ≤ s.pg.limit →
      ∃ s1, run evs s = some s1 ∧
        s1.pg.frame = s.pg.frame + (call_identities evs).length ∧
        (∀ i, i < s.pg.frame → identity (s1.pg.frames i) = identity (s.pg.frames i)) ∧
        (List.range' s.pg.frame (call_identities evs).length).map
          (fun i => identity (s1.pg.frames i)) = call_identities evs := by
  induction evs with
  | nil =>
    intro s _ _ _
    exact ⟨s, rfl, rfl, fun _ _ => rfl, rfl⟩
  | cons e es ih =>
    intro s hen hev hroom
    have hes : ∀ e ∈ es, Event.from_caller e = true := fun e he => hev e (List.mem_cons_of_mem _ he)
    have he := hev e (List.mem_cons_self _ _)
    have enter : ∀ (ed : zend_execute_data) (env : CallEnv),
        step s e = profiler_execute_enter s (some ed) env →
        (∀ c, call_identity (some ed) env = some c →
          call_identities (e :: es) = c :: call_identities es) →
        (ed.func.isSome && ed.prev_execute_data.isSome) = true →
        ∃ s1, run (e :: es) s = some s1 ∧
          s1.pg.frame = s.pg.frame + (call_identities (e :: es)).length ∧
          (∀ i, i < s.pg.frame → identity (s1.pg.frames i) = identity (s.pg.frames i)) ∧
          (List.range' s.pg.frame (call_identities (e :: es)).length).map
            (fun i => identity (s1.pg.frames i)) = call_identities (e :: es) := by
      intro ed env hstep hids hfc
      simp only [Bool.and_eq_true] at hfc
      obtain ⟨hf, hp⟩ := hfc
      rcases hfn : ed.func with _ | func
      · simp [hfn] at hf
      rcases hpv : ed.prev_execute_data with _ | prev
      · simp [hpv] at hp
      have hid := identity_stamp s.pg.memory func env (s.pg.frames s.pg.frame) ed hfn
      have hcons := hids _ hid.symm
      rw [hcons] at hroom ⊢
      simp only [List.length_cons] at hroom ⊢
      have hlt : s.pg.frame < s.pg.limit := by omega
      have h1 := enter_record s ed env func prev hen hlt hfn hpv
      obtain ⟨s1, hr, g1, g2, g3⟩ := ih _ (show
        ({ pg := { s.pg with
                    frame := s.pg.frame + 1,
                    frames := store s.pg.frames s.pg.frame
                      (stamp s.pg.memory func env (s.pg.frames s.pg.frame)) },
           profiler_frame := store s.profiler_frame prev (some s.pg.frame),
           pending := some ed :: s.pending } : State).pg.enabled = true from hen) hes
        (show s.pg.frame + 1 + (call_identities es).length ≤ s.pg.limit by omega)
      refine ⟨s1, ?_, ?_, ?_, ?_⟩
      · rw [run_cons, hstep, h1]
        exact hr
      · rw [g1]
        show s.pg.frame + 1 + _ = _
        omega
      · intro i hi
        rw [g2 i (Nat.lt_succ_of_lt hi)]
        show identity (store s.pg.frames s.pg.frame _ i) = _
        rw [store_other _ _ _ _ (Nat.ne_of_lt hi)]
      · rw [List.range'_succ, List.map_cons]
        congr 1
        rw [g2 s.pg.frame (Nat.lt_succ_self _)]
        show identity (store s.pg.frames s.pg.frame _ s.pg.frame) = _
        rw [store_same]
    cases e with
    | call ed env =>
      rcases ed with _ | ed
      · simp [Event.from_caller] at he
      · refine enter ed env rfl ?_ he
        intro c hc
        simp [call_identities, hc]
    | call_internal ed env =>
      rcases ed with _ | ed
      · simp [Event.from_caller] at he
      · refine enter ed env rfl ?_ he
        intro c hc
        simp [call_identities, hc]
    | ret env =>
      obtain ⟨h1, -, -, -, h5, h6⟩ := leave_globals s env
      have hroom1 : (profiler_execute_leave s env).pg.frame + (call_identities es).length ≤
          (profiler_execute_leave s env).pg.limit := by
        rw [h5, h6]
        exact hroom
      obtain ⟨s1, hr, g1, g2, g3⟩ := ih (profiler_execute_leave s env) (h1.trans hen) hes hroom1
      rw [h5] at g1 g2 g3
      refine ⟨s1, hr, g1, ?_, g3⟩
      intro i hi
      rw [g2 i hi, leave_identity]
    | rinit _ _ _ => simp [Event.from_caller] at he
    | rshutdown _ _ => simp [Event.from_caller] at he
    | enable => simp [Event.from_caller] at he
    | disable => simp [Event.from_caller] at he
    | output _ => simp [Event.from_caller] at he

/-- Frames in call order, what C2 says for calls that have a caller: from an
empty store with the engine enabled, a sequence of returns and of at most
`limit` calls of functions from callers runs without fault and leaves as many
frames as calls, the i-th frame carrying the file, line (as a 64-bit word),
function and scope of the i-th call. -/
theorem frames_in_call_order (evs : List Event) (s : State)
    (hen : s.pg.enabled = true) (h0 : s.pg.frame = 0)
    (hev : ∀ e ∈ evs, Event.from_caller e = true)
    (hn : (call_identities evs).length ≤ s.pg.limit) :
    ∃ s1, run evs s = some s1 ∧ s1.pg.frame = (call_identities evs).length ∧
      (recorded s1.pg).map identity = call_identities evs := by
  obtain ⟨s1, hr, g1, -, g3⟩ := run_records_in_order evs s hen hev (by omega)
  rw [h0] at g1 g3
  refine ⟨s1, hr, by omega, ?_⟩
  have hlen : s1.pg.frame = (call_identities evs).length := by omega
  rw [recorded, hlen, List.range_eq_range', List.map_map]
  exact g3

/-- The scenario of the specification: capacity 3, call A, call B inside it,
both returns, call C and its return leave the frames A, B, C in that order. -/
theorem frames_in_call_order_witness :
    ∃ s1, run [Event.call (some ⟨some ⟨some "A", none⟩, some 0⟩) ⟨1, some "a.php", 10, 100⟩,
               Event.call (some ⟨some ⟨some "B", none⟩, some 1⟩) ⟨2, some "a.php", 12, 110⟩,
               Event.ret ⟨120, 11⟩, Event.ret ⟨130, 9⟩,
               Event.call (some ⟨some ⟨some "C", some ⟨"K"⟩⟩, some 0⟩) ⟨3, some "a.php", 9, 140⟩,
               Event.ret ⟨150, 9⟩]
            { pg := { profiler_globals_ctor 3 with enabled := true },
              profiler_frame := fun _ => none, pending := [] } = some s1 ∧
      s1.pg.frame = 3 ∧
      (recorded s1.pg).map identity =
        [(some "a.php", 1, some "A", none), (some "a.php", 2, some "B", none),
          (some "a.php", 3, some "C", some "K")] := by
  obtain ⟨s1, hr, g1, g2⟩ := frames_in_call_order
    [Event.call (some ⟨some ⟨some "A", none⟩, some 0⟩) ⟨1, some "a.php", 10, 100⟩,
     Event.call (some ⟨some ⟨some "B", none⟩, some 1⟩) ⟨2, some "a.php", 12, 110⟩,
     Event.ret ⟨120, 11⟩, Event.ret ⟨130, 9⟩,
     Event.call (some ⟨some ⟨some "C", some ⟨"K"⟩⟩, some 0⟩) ⟨3, some "a.php", 9, 140⟩,
     Event.ret ⟨150, 9⟩]
    { pg := { profiler_globals_ctor 3 with enabled := true },
      profiler_frame := fun _ => none, pending := [] } rfl rfl
    (by simp [Event.from_caller]) (by decide)
  exact ⟨s1, hr, g1, g2⟩

/-- C2, the failing input: with the engine enabled and an empty store, the
hook called for a function whose execute_data has no caller
(`prev_execute_data` is NULL, as for the top-level script) dereferences the
NULL pointer in the last statement of `profiler_record_call`; the return
handler tests `prev` before it uses it. -/
theorem record_call_without_caller_faults :
    run [Event.call (some ⟨some ⟨none, none⟩, none⟩) ⟨1, some "main.php", 10, 100⟩]
        { pg := PHP_RINIT_FUNCTION true true (some "/tmp/profile.callgrind")
                  (profiler_globals_ctor 1000),
          profiler_frame := fun _ => none, pending := [] } = none ∧
      profiler_record_return
        { pg := PHP_RINIT_FUNCTION true true (some "/tmp/profile.callgrind")
                  (profiler_globals_ctor 1000),
          profiler_frame := fun _ => none, pending := [] }
        ⟨some ⟨none, none⟩, none⟩ ⟨130, 9⟩ =
        { pg := PHP_RINIT_FUNCTION true true (some "/tmp/profile.callgrind")
                  (profiler_globals_ctor 1000),
          profiler_frame := fun _ => none, pending := [] } := by
  exact ⟨rfl, rfl⟩


/-! ## The hooks as one function and as two events -/

/-- The return handler neither reads nor writes the waiting activations. -/
theorem return_pending (pg : zend_profiler_globals) (pf : Nat → Option Nat)
    (p p1 : List (Option zend_execute_data)) (e : zend_execute_data) (env : RetEnv) :
    profiler_record_return { pg := pg, profiler_frame := pf, pending := p1 } e env =
      { profiler_record_return { pg := pg, profiler_frame := pf, pending := p } e env with
        pending := p1 } := by
  simp only [profiler_record_return]
  rcases hq : e.prev_execute_data with _ | prev
  · rfl
  · rcases hk : pf prev with _ | k <;> simp [hk]

/-- The call half of a hook reads the waiting activations only to push on them. -/
theorem enter_pending (pg : zend_profiler_globals) (pf : Nat → Option Nat)
    (p p1 : List (Option zend_execute_data)) (ed : Option zend_execute_data) (env : CallEnv) :
    (profiler_execute_enter { pg := pg, profiler_frame := pf, pending := p } ed env = none →
      profiler_execute_enter { pg := pg, profiler_frame := pf, pending := p1 } ed env = none) ∧
    (∀ a, profiler_execute_enter { pg := pg, profiler_frame := pf, pending := p } ed env = some a →
      ∃ entry, a.pending = entry :: p ∧
        profiler_execute_enter { pg := pg, profiler_frame := pf, pending := p1 } ed env =
          some { a with pending := entry :: p1 }) := by
  rcases ed with _ | e
  · simp [profiler_execute_enter]
  · by_cases hc : (pg.enabled && decide (pg.frame < pg.limit) && e.func.isSome) = true
    · rcases hf : e.func with _ | func
      · simp [hf] at hc
      · rcases hp : e.prev_execute_data with _ | prev
        · simp [profiler_execute_enter, profiler_record_call, hf, hp]
        · simp only [hf, Option.isSome_some, Bool.and_true] at hc
          simp [profiler_execute_enter, profiler_record_call, hf, hp, hc]
    · simp [profiler_execute_enter, hc]

/-- A well-nested sequence gives the waiting activations back as it found
them, and what it does to the globals and the slots does not depend on them. -/
theorem nest_base (t : Nest) :
    ∀ (pg : zend_profiler_globals) (pf : Nat → Option Nat)
      (p p1 : List (Option zend_execute_data)),
      (run (Nest.events t) { pg := pg, profiler_frame := pf, pending := p } = none →
        run (Nest.events t) { pg := pg, profiler_frame := pf, pending := p1 } = none) ∧
      (∀ a, run (Nest.events t) { pg := pg, profiler_frame := pf, pending := p } = some a →
        a.pending = p ∧
        run (Nest.events t) { pg := pg, profiler_frame := pf, pending := p1 } =
          some { a with pending := p1 }) := by
  induction t with
  | done =>
    intro pg pf p p1
    refine ⟨?_, ?_⟩
    · intro h
      cases h
    intro a h
    simp only [Nest.events, run, Option.some.injEq] at h
    subst h
    exact ⟨rfl, rfl⟩
  | toggle b rest ih =>
    intro pg pf p p1
    cases b
    · exact ih (profiler_disable pg).1 pf p p1
    · exact ih (profiler_enable pg).1 pf p p1
  | call internal e envc body envr rest ihb ihr =>
    intro pg pf p p1
    have hstep : ∀ q, run (Nest.events (Nest.call internal e envc body envr rest))
        { pg := pg, profiler_frame := pf, pending := q } =
        (profiler_execute_enter { pg := pg, profiler_frame := pf, pending := q } (some e) envc).bind
          fun s1 => (run (Nest.events body) s1).bind
            fun s2 => run (Nest.events rest) (profiler_execute_leave s2 envr) := by
      intro q
      simp only [Nest.events]
      rw [run_cons]
      have : step { pg := pg, profiler_frame := pf, pending := q }
          (if internal = true then Event.call_internal (some e) envc
            else Event.call (some e) envc) =
          profiler_execute_enter { pg := pg, profiler_frame := pf, pending := q } (some e) envc := by
        cases internal <;> rfl
      rw [this]
      congr 1
      funext s1
      rw [run_append]
      rfl
    rw [hstep p, hstep p1]
    obtain ⟨en, es⟩ := enter_pending pg pf p p1 (some e) envc
    rcases h1 : profiler_execute_enter { pg := pg, profiler_frame := pf, pending := p }
        (some e) envc with _ | a1
    · rw [en h1]
      exact ⟨fun _ => rfl, fun a h => Option.noConfusion h⟩
    · obtain ⟨entry, hpa, h1'⟩ := es a1 h1
      rw [h1']
      simp only [Option.some_bind]
      rcases a1 with ⟨pg1, pf1, q1⟩
      simp only at hpa
      subst hpa
      obtain ⟨bn, bs⟩ := ihb pg1 pf1 (entry :: p) (entry :: p1)
      rcases h2 : run (Nest.events body)
          { pg := pg1, profiler_frame := pf1, pending := entry :: p } with _ | a2
      · rw [bn h2]
        exact ⟨fun _ => rfl, fun a h => Option.noConfusion h⟩
      · obtain ⟨hp2, h2'⟩ := bs a2 h2
        rw [h2']
        simp only [Option.some_bind]
        rcases a2 with ⟨pg2, pf2, q2⟩
        simp only at hp2
        subst hp2
        have hleave : ∀ q, ∃ pg3 pf3,
            profiler_execute_leave { pg := pg2, profiler_frame := pf2, pending := entry :: q } envr =
              { pg := pg3, profiler_frame := pf3, pending := q } ∧
            pg3 = (profiler_execute_leave
              { pg := pg2, profiler_frame := pf2, pending := entry :: p } envr).pg ∧
            pf3 = (profiler_execute_leave
              { pg := pg2, profiler_frame := pf2, pending := entry :: p } envr).profiler_frame := by
          intro q
          rcases entry with _ | e1
          · exact ⟨pg2, pf2, rfl, rfl, rfl⟩
          · refine ⟨_, _, ?_, rfl, rfl⟩
            simp only [profiler_execute_leave]
            rw [return_pending pg2 pf2 p q e1 envr]
        obtain ⟨pg3, pf3, l1, g1, g2⟩ := hleave p
        obtain ⟨pg3', pf3', l2, g1', g2'⟩ := hleave p1
        rw [l1, l2, g1', g2', ← g1, ← g2]
        exact ihr pg3 pf3 p p1

/-- The hook `profiler_execute` around a well-nested body is the call event,
the events of the body and the return event; the same holds for
`profiler_execute_internal`. -/
theorem profiler_execute_events (t : Nest) (ed : Option zend_execute_data) (envc : CallEnv)
    (envr : RetEnv) (s : State) :
    profiler_execute (run (Nest.events t)) ed envc envr s =
        run (Event.call ed envc :: (Nest.events t ++ [Event.ret envr])) s ∧
      profiler_execute_internal (run (Nest.events t)) ed envc envr s =
        run (Event.call_internal ed envc :: (Nest.events t ++ [Event.ret envr])) s := by
  have hrun : ∀ ev, step s ev = profiler_execute_enter s ed envc →
      run (ev :: (Nest.events t ++ [Event.ret envr])) s =
        (profiler_execute_enter s ed envc).bind fun s1 =>
          (run (Nest.events t) s1).map fun s2 => profiler_execute_leave s2 envr := by
    intro ev hev
    rw [run_cons, hev]
    congr 1
    funext s1
    rw [run_append]
    cases run (Nest.events t) s1 <;> rfl
  have hskip : profiler_execute_enter s ed envc = some { s with pending := none :: s.pending } →
      ((profiler_execute_enter s ed envc).bind fun s1 =>
        (run (Nest.events t) s1).map fun s2 => profiler_execute_leave s2 envr) =
      run (Nest.events t) s := by
    intro h
    rw [h, Option.some_bind]
    obtain ⟨bn, bs⟩ := nest_base t s.pg s.profiler_frame s.pending (none :: s.pending)
    rcases h2 : run (Nest.events t) s with _ | a
    · have := bn h2
      rw [this]
      rfl
    · obtain ⟨hp, h3⟩ := bs a h2
      rw [h3]
      simp only [Option.map_some', profiler_execute_leave]
      rw [← hp]
  have hmain : profiler_execute (run (Nest.events t)) ed envc envr s =
      (profiler_execute_enter s ed envc).bind fun s1 =>
        (run (Nest.events t) s1).map fun s2 => profiler_execute_leave s2 envr := by
    rcases ed with _ | e
    · rw [hskip rfl]
      rfl
    · by_cases hc : (s.pg.enabled && decide (s.pg.frame < s.pg.limit) && e.func.isSome) = true
      · simp only [profiler_execute, profiler_execute_enter, hc, if_true]
        rcases h1 : profiler_record_call s e envc with _ | c1
        · rfl
        · simp only [Option.some_bind, Option.map_some']
          obtain ⟨bn, bs⟩ := nest_base t c1.pg c1.profiler_frame c1.pending (some e :: c1.pending)
          rcases h2 : run (Nest.events t) c1 with _ | a
          · have := bn h2
            rw [this]
            rfl
          · obtain ⟨hp, h3⟩ := bs a h2
            rw [h3]
            simp only [Option.map_some', profiler_execute_leave]
            rw [← hp]
      · have hs : profiler_execute_enter s (some e) envc =
            some { s with pending := none :: s.pending } := by
          simp [profiler_execute_enter, hc]
        rw [hskip hs]
        simp [profiler_execute, hc]
  have hint : profiler_execute_internal (run (Nest.events t)) ed envc envr s =
      profiler_execute (run (Nest.events t)) ed envc envr s := rfl
  exact ⟨by rw [hmain, hrun (Event.call ed envc) rfl],
    by rw [hint, hmain, hrun (Event.call_internal ed envc) rfl]⟩


end Profiler
